import Mathlib

/-!
Verification of the FPL bot's transfer-validation, request-retry and
session-management layers, shallowly embedded from the Python sources
`src/services/transfer_validator.py`, `src/services/fpl_api.py` and
`src/services/session_manager.py`.

The validator operates on dynamically-typed Python values (dicts, lists,
ints, strings, booleans, `None`).  We model that value universe with the
inductive `PyVal`, including Python truthiness, `dict.get`, iteration and
the `TypeError`/`AttributeError` raising behaviour of the source, so that
the exception-handling paths of the validator are faithfully represented.
Free-text `message`/`details` fields of validation messages are elided:
each message is modelled by its `code` and `level`, which is what every
property below is about.
-/

set_option autoImplicit false

/-- Model of a dynamically-typed Python value, restricted to the shapes the
validator manipulates.  Floats do not occur in the validator's data (costs
and chances are ints in the API data); the `budget` float parameter is
modelled separately as an `Int`. -/
inductive PyVal where
  | none
  | bool (b : Bool)
  | int (n : Int)
  | str (s : String)
  | list (xs : List PyVal)
  | dict (entries : List (String × PyVal))
deriving Repr, Inhabited

namespace PyVal

/-- Python truthiness: `None`, `False`, `0`, `""`, `[]`, `{}` are falsy. -/
def truthy : PyVal → Bool
  | .none => false
  | .bool b => b
  | .int n => n != 0
  | .str s => !s.isEmpty
  | .list xs => !xs.isEmpty
  | .dict es => !es.isEmpty

/-- Whether the value is a Python `dict` (`isinstance(x, dict)`). -/
def isDict : PyVal → Bool
  | .dict _ => true
  | _ => false

/-- Whether the value is an `int` in the model. -/
def isInt : PyVal → Bool
  | .int _ => true
  | _ => false

end PyVal

mutual

/-- Python `==` on the modelled value universe: structural equality with the
Python `bool`/`int` conflation (`True == 1`). -/
def pyEq : PyVal → PyVal → Bool
  | .none, .none => true
  | .bool a, .bool b => a == b
  | .bool a, .int n => (cond a 1 0 : Int) == n
  | .int n, .bool a => n == (cond a 1 0 : Int)
  | .int a, .int b => a == b
  | .str a, .str b => a == b
  | .list a, .list b => pyEqList a b
  | .dict a, .dict b => pyEqEntries a b
  | _, _ => false

/-- Elementwise Python `==` on lists. -/
def pyEqList : List PyVal → List PyVal → Bool
  | [], [] => true
  | x :: xs, y :: ys => pyEq x y && pyEqList xs ys
  | _, _ => false

/-- Entrywise Python `==` on dict entry lists. -/
def pyEqEntries : List (String × PyVal) → List (String × PyVal) → Bool
  | [], [] => true
  | (k1, v1) :: xs, (k2, v2) :: ys => k1 == k2 && pyEq v1 v2 && pyEqEntries xs ys
  | _, _ => false

end

/-- Lookup in a dict's entry list by string key, returning a default when the
key is absent (`d.get(k, default)` for a value already known to be a dict).
On a non-dict value it returns the default; every use site below is guarded
by `isDict` exactly where the Python source is. -/
def dictGetD (v : PyVal) (k : String) (dflt : PyVal) : PyVal :=
  match v with
  | .dict es =>
    match es.find? (fun e => e.1 == k) with
    | some e => e.2
    | Option.none => dflt
  | _ => dflt

/-- Python `x.get(k, default)`: raises `AttributeError` when `x` is not a
dict (modelled as `Except.error`). -/
def pyGet (v : PyVal) (k : String) (dflt : PyVal) : Except Unit PyVal :=
  match v with
  | .dict _ => .ok (dictGetD v k dflt)
  | _ => .error ()

/-- Python numeric coercion used by `+=` and `<`: ints are numbers, bools
count as 0/1, everything else raises `TypeError`. -/
def pyNum (v : PyVal) : Except Unit Int :=
  match v with
  | .int n => .ok n
  | .bool b => .ok (cond b 1 0)
  | _ => .error ()

/-- Python iteration (`for x in v` / `list(v)`): lists yield their elements,
strings their characters, dicts their keys; other values raise `TypeError`. -/
def pyIter (v : PyVal) : Except Unit (List PyVal) :=
  match v with
  | .list xs => .ok xs
  | .str s => .ok (s.toList.map (fun c => .str (String.mk [c])))
  | .dict es => .ok (es.map (fun e => .str e.1))
  | _ => .error ()

/-- Python `len(v)`: defined for lists, strings and dicts, `TypeError`
otherwise. -/
def pyLen (v : PyVal) : Except Unit Nat :=
  match v with
  | .list xs => .ok xs.length
  | .str s => .ok s.length
  | .dict es => .ok es.length
  | _ => .error ()

/-- Severity level of a validation message. -/
inductive Level where
  | warn
  | fail
  | error
deriving DecidableEq, Repr, Inhabited

/-- A validation message, reduced to its machine-readable `code` and
`level` (the free-text `message`/`details` fields of the source are
elided). -/
structure Msg where
  code : String
  level : Level
deriving DecidableEq, Repr, Inhabited

/-- Overall verdict status. -/
inductive VStatus where
  | pass
  | fail
deriving DecidableEq, Repr, Inhabited

/-- The validation result dict built by `validate_transfers`. -/
structure Verdict where
  status : VStatus
  messages : List Msg
  override_required : Bool
deriving DecidableEq, Repr, Inhabited

/-! ## Transfer validator (`src/services/transfer_validator.py`)

Each private check of `TransferValidator` mutates the shared result dict by
appending messages and possibly setting `status` to `'fail'`; every check
wraps its body in `try/except Exception`.  We embed each check as a function
computing the delta it applies to the result: the ordered list of messages
it appends and whether it sets the status to fail.  Exceptions raised by
dynamic operations (`.get` on a non-dict, `len`/iteration on a non-sequence,
ordering comparisons on non-numbers) are propagated with `Except` up to the
check's own handler, preserving any messages already appended, exactly as
the Python `try` blocks do. -/

/-- Constructor constant `self.SQUAD_SIZE`. -/
def SQUAD_SIZE : Nat := 15

/-- Constructor constant `self.MAX_PLAYERS_PER_CLUB`. -/
def MAX_PLAYERS_PER_CLUB : Nat := 3

/-- Constructor constant `self.TRANSFERS_PER_GW`. -/
def TRANSFERS_PER_GW : Nat := 2

/-- Constructor table `self.POSITION_LIMITS`: element type ↦ (min, max),
in insertion order 1 (GK), 2 (DEF), 3 (MID), 4 (FWD). -/
def POSITION_LIMITS : List (Int × Nat × Nat) :=
  [(1, 1, 1), (2, 3, 5), (3, 3, 5), (4, 1, 3)]

/-- Constructor table `self.ALLOWED_FORMATIONS` ([GK, DEF, MID, FWD]). -/
def ALLOWED_FORMATIONS : List (List Nat) :=
  [[1, 3, 4, 3], [1, 3, 5, 2], [1, 4, 3, 3], [1, 4, 4, 2],
   [1, 4, 5, 1], [1, 5, 3, 2], [1, 5, 4, 1]]

/-- The recurring source idiom `transfer.get(k1) or transfer.get(k2)`:
Python `or` returns the first operand when it is truthy, the second one
otherwise; `.get` raises on a non-dict transfer. -/
def getPlayer (transfer : PyVal) (k1 k2 : String) : Except Unit PyVal := do
  let a ← pyGet transfer k1 .none
  if a.truthy then pure a else pyGet transfer k2 .none

/-- Body of `_validate_single_transfer` for one transfer, up to its
exception handler. -/
def singleCore (transfer : PyVal) : Except Unit (List Msg × Bool) := do
  let pout ← getPlayer transfer "element_out" "out"
  let pin ← getPlayer transfer "element_in" "in"
  if !pout.truthy || !pin.truthy then
    pure ([⟨"INVALID_TRANSFER_FORMAT", .fail⟩], true)
  else if !pout.isDict || !pin.isDict then
    pure ([⟨"INVALID_PLAYER_DATA", .fail⟩], true)
  else
    pure ([], false)

/-- `_validate_single_transfer`: delta (appended messages, sets-fail) for
one transfer; the `except` handler sets fail and appends an
error message. -/
def validate_single_transfer (transfer : PyVal) : List Msg × Bool :=
  match singleCore transfer with
  | .ok r => r
  | .error _ => ([⟨"TRANSFER_VALIDATION_ERROR", .error⟩], true)

/-- The per-transfer loop of `validate_transfers` over
`_validate_single_transfer` (each iteration has its own handler, so the
loop never aborts early). -/
def singleLoop : List PyVal → List Msg × Bool
  | [] => ([], false)
  | t :: rest =>
    let r := validate_single_transfer t
    let s := singleLoop rest
    (r.1 ++ s.1, r.2 || s.2)

/-- The list comprehension
`[p for p in final_squad if p.get('id') != player_out.get('id')]`:
`p.get` raises on a non-dict squad entry. -/
def filterById : List PyVal → PyVal → Except Unit (List PyVal)
  | [], _ => .ok []
  | p :: rest, tid => do
    let pid ← pyGet p "id" .none
    let rest2 ← filterById rest tid
    pure (if pyEq pid tid then rest2 else p :: rest2)

/-- The transfer-application loop shared verbatim by
`_validate_squad_constraints` and `_validate_formation`: remove each
player-out by id, append each player-in. -/
def applyTransfersLoop : List PyVal → List PyVal → Except Unit (List PyVal)
  | [], sq => .ok sq
  | t :: rest, sq => do
    let pout ← getPlayer t "element_out" "out"
    let pin ← getPlayer t "element_in" "in"
    let sq1 ← if pout.truthy && pout.isDict then
        filterById sq (dictGetD pout "id" .none)
      else
        pure sq
    let sq2 := if pin.truthy && pin.isDict then sq1 ++ [pin] else sq1
    applyTransfersLoop rest sq2

/-- Position counting of the source: a dict player is counted in bucket `k`
when its `element_type` (default 0) compares Python-equal to the dict key
`k` of `position_counts`. -/
def posCount (squad : List PyVal) (k : Int) : Nat :=
  (squad.filter (fun p =>
    p.isDict && pyEq (dictGetD p "element_type" (.int 0)) (.int k))).length

/-- Position-limit messages of `_validate_squad_constraints`, iterating
`POSITION_LIMITS` in insertion order. -/
def positionMsgs (squad : List PyVal) : List Msg :=
  (POSITION_LIMITS.filter (fun l =>
    posCount squad l.1 < l.2.1 || posCount squad l.1 > l.2.2)).map
    (fun _ => ⟨"INVALID_POSITION_COUNT", .fail⟩)

/-- Club key of a (dict) player:
`player.get('team', player.get('team_code', 0))`. -/
def clubKey (p : PyVal) : PyVal :=
  dictGetD p "team" (dictGetD p "team_code" (.int 0))

/-- In-place increment of the `club_counts` dict, preserving first-insertion
order, with Python key equality. -/
def bumpClub : List (PyVal × Nat) → PyVal → List (PyVal × Nat)
  | [], k => [(k, 1)]
  | (k0, c) :: rest, k =>
    if pyEq k0 k then (k0, c + 1) :: rest else (k0, c) :: bumpClub rest k

/-- The `club_counts` accumulation loop of `_validate_squad_constraints`. -/
def clubCounts (squad : List PyVal) : List (PyVal × Nat) :=
  squad.foldl (fun acc p => if p.isDict then bumpClub acc (clubKey p) else acc) []

/-- Club-limit messages of `_validate_squad_constraints`, in `club_counts`
iteration (insertion) order. -/
def clubMsgs (squad : List PyVal) : List Msg :=
  ((clubCounts squad).filter (fun e => e.2 > MAX_PLAYERS_PER_CLUB)).map
    (fun _ => ⟨"CLUB_LIMIT_EXCEEDED", .fail⟩)

/-- Body of `_validate_squad_constraints` up to its exception handler:
simulate the final squad, then check size, position counts and club
limits.  Every appended message is `fail`-level and sets the status. -/
def squadCore (transfers current_squad : PyVal) : Except Unit (List Msg × Bool) := do
  let sq0 ← pyIter current_squad
  let ts ← pyIter transfers
  let fin ← applyTransfersLoop ts sq0
  let sizeMs : List Msg :=
    if fin.length ≠ SQUAD_SIZE then [⟨"INVALID_SQUAD_SIZE", .fail⟩] else []
  let ms := sizeMs ++ positionMsgs fin ++ clubMsgs fin
  pure (ms, !ms.isEmpty)

/-- `_validate_squad_constraints`: its handler sets fail and appends an
error message. -/
def validate_squad_constraints (transfers current_squad : PyVal) : List Msg × Bool :=
  match squadCore transfers current_squad with
  | .ok r => r
  | .error _ => ([⟨"SQUAD_CONSTRAINT_ERROR", .error⟩], true)

/-- Per-transfer price extraction of `_validate_budget`: the sold price is
`player_out.get('now_cost', player_out.get('selling_price', 0))` when the
player-out is a truthy dict (0 otherwise), and symmetrically for the bought
price; the subsequent `+=` raises `TypeError` on a non-numeric price. -/
def transferPrices (t : PyVal) : Except Unit (Int × Int) := do
  let pout ← getPlayer t "element_out" "out"
  let pin ← getPlayer t "element_in" "in"
  let sold : PyVal :=
    if pout.truthy && pout.isDict then
      dictGetD pout "now_cost" (dictGetD pout "selling_price" (.int 0))
    else .int 0
  let bought : PyVal :=
    if pin.truthy && pin.isDict then
      dictGetD pin "now_cost" (dictGetD pin "selling_price" (.int 0))
    else .int 0
  let s ← pyNum sold
  let b ← pyNum bought
  pure (s, b)

/-- The `total_sold`/`total_cost` accumulation loop of `_validate_budget`. -/
def budgetTotals : List PyVal → Except Unit (Int × Int)
  | [] => .ok (0, 0)
  | t :: rest => do
    let p ← transferPrices t
    let r ← budgetTotals rest
    pure (p.1 + r.1, p.2 + r.2)

/-- Body of `_validate_budget` up to its exception handler:
`final_budget = budget + total_sold - total_cost`, failing when negative. -/
def budgetCore (transfers : PyVal) (budget : Int) : Except Unit (List Msg × Bool) := do
  let ts ← pyIter transfers
  let tot ← budgetTotals ts
  let final_budget := budget + tot.1 - tot.2
  if final_budget < 0 then
    pure ([⟨"INSUFFICIENT_BUDGET", .fail⟩], true)
  else
    pure ([], false)

/-- `_validate_budget` (the `current_squad` parameter of the source is
unused by its body): its handler sets fail and appends an error message. -/
def validate_budget (transfers current_squad : PyVal) (budget : Int) : List Msg × Bool :=
  match budgetCore transfers budget with
  | .ok r => r
  | .error _ => ([⟨"BUDGET_VALIDATION_ERROR", .error⟩], true)

/-- Formation vector `[GK, DEF, MID, FWD]` of a starting XI. -/
def formationOf (xi : List PyVal) : List Nat :=
  [posCount xi 1, posCount xi 2, posCount xi 3, posCount xi 4]

/-- Body of `_validate_formation` up to its exception handler: re-simulate
the final squad, take the first 11 players, and warn when their formation
is not in `ALLOWED_FORMATIONS`. -/
def formationCore (transfers current_squad : PyVal) : Except Unit (List Msg) := do
  let sq0 ← pyIter current_squad
  let ts ← pyIter transfers
  let fin ← applyTransfersLoop ts sq0
  let f := formationOf (fin.take 11)
  if ALLOWED_FORMATIONS.contains f then pure [] else pure [⟨"INVALID_FORMATION", .warn⟩]

/-- `_validate_formation`: never touches the status; its handler appends an
error message without setting fail. -/
def validate_formation (transfers current_squad : PyVal) : List Msg :=
  match formationCore transfers current_squad with
  | .ok ms => ms
  | .error _ => [⟨"FORMATION_VALIDATION_ERROR", .error⟩]

/-- Body of `_validate_chips_and_transfers` up to its exception handler.
`wildcard_active = chips and chips.get('wildcard', False)` evaluates to
`chips` itself when `chips` is falsy and raises on a truthy non-dict;
the transfer-limit message is `warn`-level only. -/
def chipsCore (transfers chips : PyVal) : Except Unit (List Msg) := do
  let wc ← if chips.truthy then pyGet chips "wildcard" (.bool false) else pure chips
  let fh ← if chips.truthy then pyGet chips "freehit" (.bool false) else pure chips
  if !wc.truthy && !fh.truthy then
    let n ← pyLen transfers
    if n > TRANSFERS_PER_GW then
      pure [⟨"TRANSFER_LIMIT_EXCEEDED", .warn⟩]
    else
      pure []
  else
    pure []

/-- `_validate_chips_and_transfers` (the `gameweek` parameter of the source
is unused by its body): never touches the status; its handler appends an
error message without setting fail. -/
def validate_chips_and_transfers (transfers : PyVal) (gameweek : Int) (chips : PyVal) : List Msg :=
  match chipsCore transfers chips with
  | .ok ms => ms
  | .error _ => [⟨"CHIP_VALIDATION_ERROR", .error⟩]

/-- One iteration of the `_validate_player_availability` loop: the triple is
(messages appended, status set to fail, exception raised).  A raise can
happen after the `PLAYER_UNAVAILABLE` message was already appended (the
`chance_next < 75` comparison raises on a non-numeric chance), in which
case the partial messages are preserved. -/
def availStep (transfer : PyVal) : List Msg × Bool × Bool :=
  match getPlayer transfer "element_in" "in" with
  | .error _ => ([], false, true)
  | .ok pin =>
    if pin.truthy && pin.isDict then
      let stat := dictGetD pin "status" (.str "a")
      let ms1 : List Msg :=
        if !pyEq stat (.str "a") then [⟨"PLAYER_UNAVAILABLE", .warn⟩] else []
      match dictGetD pin "chance_of_playing_next_round" .none with
      | .none => (ms1, false, false)
      | chance =>
        match pyNum chance with
        | .error _ => (ms1, false, true)
        | .ok c =>
          if c < 75 then
            if c < 25 then
              (ms1 ++ [⟨"LOW_CHANCE_OF_PLAYING", .fail⟩], true, false)
            else
              (ms1 ++ [⟨"LOW_CHANCE_OF_PLAYING", .warn⟩], false, false)
          else
            (ms1, false, false)
    else
      ([], false, false)

/-- The `_validate_player_availability` loop: it sits inside a single `try`
block, so the first exception aborts the remaining transfers. -/
def availLoop : List PyVal → List Msg × Bool × Bool
  | [] => ([], false, false)
  | t :: rest =>
    let r := availStep t
    if r.2.2 then (r.1, r.2.1, true)
    else
      let s := availLoop rest
      (r.1 ++ s.1, r.2.1 || s.2.1, s.2.2)

/-- `_validate_player_availability`: delta (messages, sets-fail); its
handler appends an error message after any partial messages, without
setting fail. -/
def validate_player_availability (transfers : PyVal) : List Msg × Bool :=
  match pyIter transfers with
  | .error _ => ([⟨"AVAILABILITY_VALIDATION_ERROR", .error⟩], false)
  | .ok ts =>
    let r := availLoop ts
    (r.1 ++ (if r.2.2 then [⟨"AVAILABILITY_VALIDATION_ERROR", .error⟩] else []), r.2.1)

/-- Application of one check's delta to the accumulated result dict:
messages are appended; the status is set to `'fail'` when the check sets
it, and left unchanged otherwise (no check ever resets it to `'pass'`). -/
def applyCheck (v : Verdict) (d : List Msg × Bool) : Verdict :=
  { v with
    messages := v.messages ++ d.1,
    status := if d.2 then .fail else v.status }

/-- `TransferValidator.validate_transfers`: runs the six checks in source
order on the initial `pass` result, then the override step.  The top-level
`except` can only be reached by the `enumerate(transfers)` iteration
itself failing (every check handles its own exceptions), and then returns a
fresh verdict holding the single `VALIDATION_ERROR` message. -/
def validate_transfers (transfers current_squad : PyVal) (budget : Int)
    (gameweek : Int) (chips : PyVal) (override : Bool) : Verdict :=
  match pyIter transfers with
  | .error _ => ⟨.fail, [⟨"VALIDATION_ERROR", .error⟩], false⟩
  | .ok ts =>
    let v0 : Verdict := ⟨.pass, [], false⟩
    let v1 := applyCheck v0 (singleLoop ts)
    let v2 := applyCheck v1 (validate_squad_constraints transfers current_squad)
    let v3 := applyCheck v2 (validate_budget transfers current_squad budget)
    let v4 := applyCheck v3 (validate_formation transfers current_squad, false)
    let v5 := applyCheck v4 (validate_chips_and_transfers transfers gameweek chips, false)
    let v6 := applyCheck v5 (validate_player_availability transfers)
    if v6.status = .fail then
      { status := v6.status,
        messages := v6.messages ++ (if override then [⟨"OVERRIDE_USED", .warn⟩] else []),
        override_required := !override }
    else
      v6

/-! ## Request layer (`src/services/fpl_api.py`)

`FPLAPI._make_request_with_retry` is an async function decorated with
tenacity's `retry(stop=stop_after_attempt(5), retry=retry_if_exception_type(
(RetryableAPIError, TimeoutError, ClientConnectorError)), reraise=True)`.
We embed one decorated call as a loop of at most 5 executions of the
function body.  Upstream behaviour is an oracle: `outcomes : Nat → Outcome`
gives the result of the n-th network request actually performed, and
`reauths : Nat → Bool` the result of the n-th `_authenticate()` call made
from the 401 branch.  Response bodies are opaque `Nat` identifiers; the
cache maps a URL to `(body, storedAt)`.  Time is held fixed during one
decorated call. -/

/-- The response cache `self._cache`: url ↦ (parsed body, `time.time()` at
store time). -/
abbrev Cache := List (String × Nat × Int)

/-- `FPLAPI._cache_ttl` (300 seconds). -/
def CACHE_TTL : Int := 300

/-- `FPLAPI._is_cached`: a hit requires `now - timestamp < ttl`; an expired
entry is deleted (`del self._cache[url]`) and reported as a miss.  Returns
`((hit, value), cache-after-lookup)`. -/
def is_cached (cache : Cache) (ttl now : Int) (url : String) :
    (Bool × Option Nat) × Cache :=
  match cache.find? (fun e => e.1 == url) with
  | some e =>
    if now - e.2.2 < ttl then ((true, some e.2.1), cache)
    else ((false, Option.none), cache.eraseP (fun e2 => e2.1 == url))
  | Option.none => ((false, Option.none), cache)

/-- Python dict assignment `self._cache[url] = (response, time.time())`:
replace in place when the key exists, append otherwise. -/
def cacheSet : Cache → String → Nat × Int → Cache
  | [], url, v => [(url, v)]
  | e :: rest, url, v =>
    if e.1 == url then (url, v) :: rest else e :: cacheSet rest url v

/-- Result of one upstream network request. -/
inductive Outcome where
  | ok (body : Nat)
  | http (code : Nat)
  | connError
  | timeout
deriving DecidableEq, Repr, Inhabited

/-- A retryable exception escaping the function body: `RetryableAPIError`
raised for 429/500/502/503, the `RetryableAPIError` raised after a
successful re-authentication on a 401, or a re-raised connection/timeout
error.  All are in tenacity's `retry_if_exception_type` list. -/
inductive RetryErr where
  | retryableHTTP (code : Nat)
  | reauthRetry
  | connE
  | timeoutE
deriving DecidableEq, Repr, Inhabited

/-- Decidable equality for `Except` results, used to evaluate the request
model on concrete inputs. -/
instance exceptDecEq {ε α : Type} [DecidableEq ε] [DecidableEq α] :
    DecidableEq (Except ε α) := fun x y =>
  match x, y with
  | .ok a, .ok b =>
    if h : a = b then .isTrue (by simp [h]) else .isFalse (by simp [h])
  | .error a, .error b =>
    if h : a = b then .isTrue (by simp [h]) else .isFalse (by simp [h])
  | .ok _, .error _ => .isFalse (by simp)
  | .error _, .ok _ => .isFalse (by simp)

/-- State after executing the body of `_make_request_with_retry` once (or
after the whole decorated call): `result` is `.ok v` when the body
returned `v` and `.error e` when a retryable exception escaped; `oIdx` and
`rIdx` are how many network requests and `_authenticate` calls have been
consumed so far. -/
structure AttemptRes where
  result : Except RetryErr (Option Nat)
  cache : Cache
  oIdx : Nat
  rIdx : Nat
deriving DecidableEq, Repr

/-- One execution of the body of `_make_request_with_retry` (for a GET;
`cacheable`, `authenticated` as in the source): consult the cache, ensure
authentication, perform one network request and classify it.  `ensureOk`
is the (stable) result of `_ensure_authenticated`, `sessionAvail` whether
`session_to_use` is non-`None`. -/
def requestBody (cacheable authenticated ensureOk sessionAvail : Bool)
    (ttl now : Int) (url : String)
    (outcomes : Nat → Outcome) (reauths : Nat → Bool)
    (cache : Cache) (oIdx rIdx : Nat) : AttemptRes :=
  let look := is_cached cache ttl now url
  if cacheable && look.1.1 then
    ⟨.ok look.1.2, look.2, oIdx, rIdx⟩
  else
    let cache1 := if cacheable then look.2 else cache
    if authenticated && !ensureOk then
      ⟨.ok Option.none, cache1, oIdx, rIdx⟩
    else if !sessionAvail then
      ⟨.ok Option.none, cache1, oIdx, rIdx⟩
    else
      match outcomes oIdx with
      | .ok body =>
        let cache2 := if cacheable then cacheSet cache1 url (body, now) else cache1
        ⟨.ok (some body), cache2, oIdx + 1, rIdx⟩
      | .http code =>
        if code == 401 then
          if reauths rIdx then ⟨.error .reauthRetry, cache1, oIdx + 1, rIdx + 1⟩
          else ⟨.ok Option.none, cache1, oIdx + 1, rIdx + 1⟩
        else if code == 429 || code == 500 || code == 502 || code == 503 then
          ⟨.error (.retryableHTTP code), cache1, oIdx + 1, rIdx⟩
        else
          ⟨.ok Option.none, cache1, oIdx + 1, rIdx⟩
      | .connError => ⟨.error .connE, cache1, oIdx + 1, rIdx⟩
      | .timeout => ⟨.error .timeoutE, cache1, oIdx + 1, rIdx⟩

/-- The tenacity loop: run the body; on a retryable exception retry (after
backoff) while attempts remain, and re-raise the last exception once the
5th attempt has failed (`stop_after_attempt(5)`, `reraise=True`).
`attemptsLeft` is the number of body executions still allowed; the `0`
case is unreachable from `make_request_with_retry`. -/
def tenacityLoop (cacheable authenticated ensureOk sessionAvail : Bool)
    (ttl now : Int) (url : String)
    (outcomes : Nat → Outcome) (reauths : Nat → Bool) :
    Nat → Cache → Nat → Nat → AttemptRes
  | 0, cache, oIdx, rIdx => ⟨.ok Option.none, cache, oIdx, rIdx⟩
  | Nat.succ k, cache, oIdx, rIdx =>
    let r := requestBody cacheable authenticated ensureOk sessionAvail
      ttl now url outcomes reauths cache oIdx rIdx
    match r.result with
    | .ok _ => r
    | .error _ =>
      if k == 0 then r
      else tenacityLoop cacheable authenticated ensureOk sessionAvail
        ttl now url outcomes reauths k r.cache r.oIdx r.rIdx

/-- `_make_request_with_retry` as called: at most 5 attempts. -/
def make_request_with_retry (cacheable authenticated ensureOk sessionAvail : Bool)
    (ttl now : Int) (url : String)
    (outcomes : Nat → Outcome) (reauths : Nat → Bool) (cache : Cache) : AttemptRes :=
  tenacityLoop cacheable authenticated ensureOk sessionAvail
    ttl now url outcomes reauths 5 cache 0 0

/-! ## Session lifecycle (`src/services/fpl_api.py`, `src/services/session_manager.py`) -/

/-- `FPLAPI.session_expires_in` default (1 hour). -/
def SESSION_EXPIRES_IN : Int := 3600

/-- `FPLAPI.min_session_time` default (5 minutes). -/
def MIN_SESSION_TIME : Int := 300

/-- `FPLAPI._is_session_expired`: `if not self.last_auth_time` is Python
falsiness, true for both `None` and the degenerate timestamp `0`;
otherwise the session counts as expired when
`now - last_auth_time > session_expires_in - min_session_time`. -/
def is_session_expired (now : Int) (last_auth_time : Option Int)
    (session_expires_in min_session_time : Int) : Bool :=
  match last_auth_time with
  | Option.none => true
  | some t =>
    if t = 0 then true
    else decide (now - t > session_expires_in - min_session_time)

/-- Result of `FPLAPI._ensure_authenticated`: its boolean return value and
the number of `_authenticate()` calls it performed (each such call is
authentication I/O: it either opens an authenticated HTTP session from
stored cookies or drives a headless-browser login). -/
structure EnsureRes where
  success : Bool
  authCalls : Nat
deriving DecidableEq, Repr

/-- `FPLAPI._ensure_authenticated`: authenticate when no authenticated
session exists or the session is expired/invalid; note it consults no
failure counter of any kind.  `expired` is `_is_session_expired`, `valid`
is the probe result of `_is_session_valid`, `authResult` the outcome of
`_authenticate()`. -/
def ensure_authenticated (hasAuthSession expired valid authResult : Bool) : EnsureRes :=
  if !hasAuthSession then ⟨authResult, 1⟩
  else if expired || !valid then ⟨authResult, 1⟩
  else ⟨true, 0⟩

/-- `SessionManager.refresh_window` (5 minutes). -/
def REFRESH_WINDOW : Int := 300

/-- `SessionManager.max_refresh_attempts`. -/
def MAX_REFRESH_ATTEMPTS : Nat := 3

/-- `SessionManager.is_session_expiring_soon`: with no stored session it
answers true; otherwise `time.time() > expires_at - refresh_window`. -/
def is_session_expiring_soon (now : Int) (sessionExpiresAt : Option Int)
    (refresh_window : Int) : Bool :=
  match sessionExpiresAt with
  | Option.none => true
  | some expires_at => decide (now > expires_at - refresh_window)

/-- Result of `SessionManager.refresh_session` for one account: the boolean
return value, the failure counter afterwards, the number of
`fpl_api_instance._authenticate()` calls performed, whether the
"account disabled" security event was logged (the source only logs: no
state is changed and nothing is short-circuited by it), and the
`expires_at` stored on success. -/
structure RefreshRes where
  success : Bool
  failures : Nat
  authCalls : Nat
  disableLogged : Bool
  storedExpiresAt : Option Int
deriving DecidableEq, Repr

/-- `SessionManager.refresh_session`: unconditionally calls
`_authenticate()` (one authentication attempt), then on success resets the
failure counter and stores a session expiring at
`now + session_expires_in`; on failure increments the counter and, once it
reaches `max_refresh_attempts`, logs a security event — and nothing else. -/
def refresh_session (failures0 : Nat) (now session_expires_in : Int)
    (authSucceeds : Bool) : RefreshRes :=
  if authSucceeds then
    ⟨true, 0, 1, false, some (now + session_expires_in)⟩
  else
    let f := failures0 + 1
    ⟨false, f, 1, decide (f ≥ MAX_REFRESH_ATTEMPTS), Option.none⟩

/-! ## Derived forms and characterization lemmas for the validator -/

/-- The player-out of a transfer dict:
value of `transfer.get('element_out') or transfer.get('out')`. -/
def outPlayer (t : PyVal) : PyVal :=
  let a := dictGetD t "element_out" .none
  if a.truthy then a else dictGetD t "out" .none

/-- The player-in of a transfer dict:
value of `transfer.get('element_in') or transfer.get('in')`. -/
def inPlayer (t : PyVal) : PyVal :=
  let a := dictGetD t "element_in" .none
  if a.truthy then a else dictGetD t "in" .none

/-- The price a player contributes in `_validate_budget`. -/
def priceVal (p : PyVal) : PyVal :=
  if p.truthy && p.isDict then
    dictGetD p "now_cost" (dictGetD p "selling_price" (.int 0))
  else .int 0

/-- Sale price of a transfer's player-out. -/
def soldPrice (t : PyVal) : PyVal := priceVal (outPlayer t)

/-- Purchase price of a transfer's player-in. -/
def boughtPrice (t : PyVal) : PyVal := priceVal (inPlayer t)

/-- Underlying integer of an int value (0 elsewhere; used only under
`isInt` hypotheses). -/
def asInt : PyVal → Int
  | .int n => n
  | _ => 0

/-- A transfer is budget-well-formed when it is a dict and both extracted
prices are ints (so `_validate_budget` raises no exception on it). -/
def wfBudgetT (t : PyVal) : Bool :=
  t.isDict && (soldPrice t).isInt && (boughtPrice t).isInt

/-- `total_sold` of `_validate_budget` over a transfer list. -/
def totalSold (ts : List PyVal) : Int := (ts.map (fun t => asInt (soldPrice t))).sum

/-- `total_cost` of `_validate_budget` over a transfer list. -/
def totalCost (ts : List PyVal) : Int := (ts.map (fun t => asInt (boughtPrice t))).sum

theorem getPlayer_out_eq (t : PyVal) (h : t.isDict = true) :
    getPlayer t "element_out" "out" = .ok (outPlayer t) := by
  cases t <;>
    simp_all [getPlayer, pyGet, outPlayer, PyVal.isDict, bind, Except.bind, pure, Except.pure]
  split <;> rfl

theorem getPlayer_in_eq (t : PyVal) (h : t.isDict = true) :
    getPlayer t "element_in" "in" = .ok (inPlayer t) := by
  cases t <;>
    simp_all [getPlayer, pyGet, inPlayer, PyVal.isDict, bind, Except.bind, pure, Except.pure]
  split <;> rfl

theorem pyNum_isInt (v : PyVal) (h : v.isInt = true) : pyNum v = .ok (asInt v) := by
  cases v <;> simp_all [pyNum, asInt, PyVal.isInt]

theorem transferPrices_wf (t : PyVal) (h : wfBudgetT t = true) :
    transferPrices t = .ok (asInt (soldPrice t), asInt (boughtPrice t)) := by
  have hd : t.isDict = true := by
    simp [wfBudgetT, Bool.and_eq_true] at h; exact h.1.1
  have hs : (soldPrice t).isInt = true := by
    simp [wfBudgetT, Bool.and_eq_true] at h; exact h.1.2
  have hb : (boughtPrice t).isInt = true := by
    simp [wfBudgetT, Bool.and_eq_true] at h; exact h.2
  have hs2 := pyNum_isInt _ hs
  have hb2 := pyNum_isInt _ hb
  simp [soldPrice, boughtPrice, priceVal] at hs2 hb2
  simp [transferPrices, getPlayer_out_eq t hd, getPlayer_in_eq t hd, bind, Except.bind,
    soldPrice, boughtPrice, priceVal, hs2, hb2, pure, Except.pure]

theorem budgetTotals_wf (ts : List PyVal) (h : ∀ t ∈ ts, wfBudgetT t = true) :
    budgetTotals ts = .ok (totalSold ts, totalCost ts) := by
  induction ts with
  | nil => simp [budgetTotals, totalSold, totalCost]
  | cons t rest ih =>
    have h1 := h t (by simp)
    have h2 : ∀ x ∈ rest, wfBudgetT x = true := fun x hx => h x (by simp [hx])
    simp [budgetTotals, transferPrices_wf t h1, ih h2, bind, Except.bind,
      totalSold, totalCost, pure, Except.pure]

theorem validate_budget_wf (ts : List PyVal) (sq : PyVal) (b : Int)
    (h : ∀ t ∈ ts, wfBudgetT t = true) :
    validate_budget (.list ts) sq b =
      (if b + totalSold ts - totalCost ts < 0 then
        ([⟨"INSUFFICIENT_BUDGET", .fail⟩], true)
      else ([], false)) := by
  have hiff : (b + totalSold ts < totalCost ts) ↔ (b + totalSold ts - totalCost ts < 0) := by
    omega
  by_cases hc : b + totalSold ts - totalCost ts < 0 <;>
    simp [validate_budget, budgetCore, pyIter, budgetTotals_wf ts h, bind, Except.bind,
      pure, Except.pure, hiff, hc]

theorem singleCore_shape (t : PyVal) :
    singleCore t = .ok ([⟨"INVALID_TRANSFER_FORMAT", .fail⟩], true) ∨
    singleCore t = .ok ([⟨"INVALID_PLAYER_DATA", .fail⟩], true) ∨
    singleCore t = .ok ([], false) ∨
    singleCore t = .error () := by
  unfold singleCore
  rcases h1 : getPlayer t "element_out" "out" with e1 | po
  · simp [bind, Except.bind, h1]
  · rcases h2 : getPlayer t "element_in" "in" with e2 | pi2
    · simp [bind, Except.bind, h1, h2]
    · simp only [bind, Except.bind, h1, h2, pure, Except.pure]
      split_ifs <;> simp

theorem validate_single_transfer_shape (t : PyVal) :
    validate_single_transfer t = ([⟨"INVALID_TRANSFER_FORMAT", .fail⟩], true) ∨
    validate_single_transfer t = ([⟨"INVALID_PLAYER_DATA", .fail⟩], true) ∨
    validate_single_transfer t = ([], false) ∨
    validate_single_transfer t = ([⟨"TRANSFER_VALIDATION_ERROR", .error⟩], true) := by
  unfold validate_single_transfer
  rcases singleCore_shape t with h | h | h | h <;> simp [h]

theorem singleLoop_mem_flag (ts : List PyVal) (m : Msg) :
    m ∈ (singleLoop ts).1 → (singleLoop ts).2 = true := by
  induction ts with
  | nil => intro hm; simp [singleLoop] at hm
  | cons t rest ih =>
    intro hm
    have hc1 : (singleLoop (t :: rest)).1 =
        (validate_single_transfer t).1 ++ (singleLoop rest).1 := rfl
    have hc2 : (singleLoop (t :: rest)).2 =
        ((validate_single_transfer t).2 || (singleLoop rest).2) := rfl
    rw [hc1] at hm
    rw [hc2]
    rcases List.mem_append.mp hm with hm | hm
    · rcases validate_single_transfer_shape t with h | h | h | h <;>
        rw [h] at hm ⊢ <;> simp_all
    · simp [ih hm]

theorem singleLoop_mem_shape (ts : List PyVal) (m : Msg) :
    m ∈ (singleLoop ts).1 →
    m = ⟨"INVALID_TRANSFER_FORMAT", .fail⟩ ∨ m = ⟨"INVALID_PLAYER_DATA", .fail⟩ ∨
    m = ⟨"TRANSFER_VALIDATION_ERROR", .error⟩ := by
  induction ts with
  | nil => intro hm; simp [singleLoop] at hm
  | cons t rest ih =>
    intro hm
    have hc1 : (singleLoop (t :: rest)).1 =
        (validate_single_transfer t).1 ++ (singleLoop rest).1 := rfl
    rw [hc1] at hm
    rcases List.mem_append.mp hm with hm | hm
    · rcases validate_single_transfer_shape t with h | h | h | h <;>
        rw [h] at hm <;> simp at hm <;> simp [hm]
    · exact ih hm

theorem positionMsgs_mem (l : List PyVal) (m : Msg) (hm : m ∈ positionMsgs l) :
    m = ⟨"INVALID_POSITION_COUNT", .fail⟩ := by
  obtain ⟨x, _, hx⟩ := List.mem_map.mp hm
  exact hx.symm

theorem clubMsgs_mem (l : List PyVal) (m : Msg) (hm : m ∈ clubMsgs l) :
    m = ⟨"CLUB_LIMIT_EXCEEDED", .fail⟩ := by
  obtain ⟨x, _, hx⟩ := List.mem_map.mp hm
  exact hx.symm

theorem squadCore_ok (tv sq : PyVal) (r : List Msg × Bool) (h : squadCore tv sq = .ok r) :
    (∀ m ∈ r.1, m = ⟨"INVALID_SQUAD_SIZE", .fail⟩ ∨ m = ⟨"INVALID_POSITION_COUNT", .fail⟩ ∨
      m = ⟨"CLUB_LIMIT_EXCEEDED", .fail⟩) ∧ (r.1 ≠ [] → r.2 = true) := by
  unfold squadCore at h
  rcases h0 : pyIter sq with e | sq0
  · simp [h0, bind, Except.bind] at h
  simp only [h0, bind, Except.bind] at h
  rcases h1 : pyIter tv with e | ts2
  · simp [h1, bind, Except.bind] at h
  simp only [h1, bind, Except.bind] at h
  rcases h2 : applyTransfersLoop ts2 sq0 with e | fin
  · simp [h2, bind, Except.bind] at h
  simp only [h2, bind, Except.bind, pure, Except.pure, Except.ok.injEq] at h
  subst h
  constructor
  · intro m hm
    rcases List.mem_append.mp hm with hm2 | hm2
    · rcases List.mem_append.mp hm2 with hm3 | hm3
      · left
        revert hm3
        split <;> simp
      · exact Or.inr (Or.inl (positionMsgs_mem _ _ hm3))
    · exact Or.inr (Or.inr (clubMsgs_mem _ _ hm2))
  · intro hne
    cases hml : List.isEmpty
        (((if fin.length ≠ SQUAD_SIZE then [⟨"INVALID_SQUAD_SIZE", Level.fail⟩] else []) ++
          positionMsgs fin ++ clubMsgs fin)) with
    | false => simp
    | true => exact absurd (List.isEmpty_iff.mp hml) hne

theorem validate_squad_constraints_mem (tv sq : PyVal) (m : Msg)
    (hm : m ∈ (validate_squad_constraints tv sq).1) :
    m = ⟨"INVALID_SQUAD_SIZE", .fail⟩ ∨ m = ⟨"INVALID_POSITION_COUNT", .fail⟩ ∨
    m = ⟨"CLUB_LIMIT_EXCEEDED", .fail⟩ ∨ m = ⟨"SQUAD_CONSTRAINT_ERROR", .error⟩ := by
  rcases h : squadCore tv sq with e | r
  · simp only [validate_squad_constraints, h] at hm
    simp at hm
    simp [hm]
  · simp only [validate_squad_constraints, h] at hm
    rcases (squadCore_ok tv sq r h).1 m hm with h2 | h2 | h2 <;> simp [h2]

theorem validate_squad_constraints_flag (tv sq : PyVal)
    (hne : (validate_squad_constraints tv sq).1 ≠ []) :
    (validate_squad_constraints tv sq).2 = true := by
  rcases h : squadCore tv sq with e | r
  · simp [validate_squad_constraints, h]
  · simp only [validate_squad_constraints, h] at hne ⊢
    exact (squadCore_ok tv sq r h).2 hne

theorem formationCore_ok (tv sq : PyVal) (ms : List Msg) (h : formationCore tv sq = .ok ms) :
    ms = [] ∨ ms = [⟨"INVALID_FORMATION", .warn⟩] := by
  unfold formationCore at h
  rcases h0 : pyIter sq with e | sq0
  · simp [h0, bind, Except.bind] at h
  simp only [h0, bind, Except.bind] at h
  rcases h1 : pyIter tv with e | ts2
  · simp [h1, bind, Except.bind] at h
  simp only [h1, bind, Except.bind] at h
  rcases h2 : applyTransfersLoop ts2 sq0 with e | fin
  · simp [h2, bind, Except.bind] at h
  simp only [h2, bind, Except.bind, pure, Except.pure] at h
  revert h
  split <;> intro h <;> simp only [Except.ok.injEq] at h <;> simp [← h]

theorem validate_formation_mem (tv sq : PyVal) (m : Msg) (hm : m ∈ validate_formation tv sq) :
    m = ⟨"INVALID_FORMATION", .warn⟩ ∨ m = ⟨"FORMATION_VALIDATION_ERROR", .error⟩ := by
  rcases h : formationCore tv sq with e | ms
  · simp only [validate_formation, h] at hm
    simp at hm
    simp [hm]
  · simp only [validate_formation, h] at hm
    rcases formationCore_ok tv sq ms h with h2 | h2 <;> rw [h2] at hm <;> simp at hm
    simp [hm]

theorem chipsCore_ok (tv ch : PyVal) (ms : List Msg) (h : chipsCore tv ch = .ok ms) :
    ms = [] ∨ ms = [⟨"TRANSFER_LIMIT_EXCEEDED", .warn⟩] := by
  unfold chipsCore at h
  by_cases hc : ch.truthy = true
  · simp only [hc, if_true] at h
    rcases hw : pyGet ch "wildcard" (.bool false) with e | wc
    · simp [hw, bind, Except.bind] at h
    simp only [hw, bind, Except.bind] at h
    rcases hf : pyGet ch "freehit" (.bool false) with e | fh
    · simp [hf, bind, Except.bind] at h
    simp only [hf, bind, Except.bind] at h
    revert h
    split
    · rcases hn : pyLen tv with e | n <;> simp only [hn, bind, Except.bind]
      · intro h; simp at h
      · split <;> intro h <;> simp only [pure, Except.pure, Except.ok.injEq] at h <;> simp [← h]
    · intro h; simp only [pure, Except.pure, Except.ok.injEq] at h; simp [← h]
  · simp only [hc, if_false, Bool.false_eq_true, bind, Except.bind, pure, Except.pure] at h
    revert h
    split
    · rcases hn : pyLen tv with e | n <;> simp only [hn, bind, Except.bind]
      · intro h; simp at h
      · split <;> intro h <;> simp only [pure, Except.pure, Except.ok.injEq] at h <;> simp [← h]
    · intro h; simp only [pure, Except.pure, Except.ok.injEq] at h; simp [← h]

theorem validate_chips_mem (tv : PyVal) (g : Int) (ch : PyVal) (m : Msg)
    (hm : m ∈ validate_chips_and_transfers tv g ch) :
    m = ⟨"TRANSFER_LIMIT_EXCEEDED", .warn⟩ ∨ m = ⟨"CHIP_VALIDATION_ERROR", .error⟩ := by
  rcases h : chipsCore tv ch with e | ms
  · simp only [validate_chips_and_transfers, h] at hm
    simp at hm
    simp [hm]
  · simp only [validate_chips_and_transfers, h] at hm
    rcases chipsCore_ok tv ch ms h with h2 | h2 <;> rw [h2] at hm <;> simp at hm
    simp [hm]

theorem availStep_shape (t : PyVal) :
    (∀ m ∈ (availStep t).1, m = ⟨"PLAYER_UNAVAILABLE", .warn⟩ ∨
      m = ⟨"LOW_CHANCE_OF_PLAYING", .fail⟩ ∨ m = ⟨"LOW_CHANCE_OF_PLAYING", .warn⟩) ∧
    ((∃ m ∈ (availStep t).1, m.level = .fail) → (availStep t).2.1 = true) := by
  rcases h1 : getPlayer t "element_in" "in" with e | pin
  · simp [availStep, h1]
  · simp only [availStep, h1]
    split
    · rcases hch : dictGetD pin "chance_of_playing_next_round" PyVal.none with
        _ | b | n | s | xs | es <;>
        simp only [hch, pyNum] <;> first
        | (split_ifs <;> simp_all)
        | simp_all
    · simp

theorem availLoop_shape (ts : List PyVal) :
    (∀ m ∈ (availLoop ts).1, m = ⟨"PLAYER_UNAVAILABLE", .warn⟩ ∨
      m = ⟨"LOW_CHANCE_OF_PLAYING", .fail⟩ ∨ m = ⟨"LOW_CHANCE_OF_PLAYING", .warn⟩) ∧
    ((∃ m ∈ (availLoop ts).1, m.level = .fail) → (availLoop ts).2.1 = true) := by
  induction ts with
  | nil => simp [availLoop]
  | cons t rest ih =>
    have hstep := availStep_shape t
    by_cases hr : (availStep t).2.2 = true
    · have hc : availLoop (t :: rest) = ((availStep t).1, (availStep t).2.1, true) := by
        simp [availLoop, hr]
      rw [hc]
      exact ⟨hstep.1, hstep.2⟩
    · have hc : availLoop (t :: rest) =
          ((availStep t).1 ++ (availLoop rest).1,
           ((availStep t).2.1 || (availLoop rest).2.1), (availLoop rest).2.2) := by
        simp [availLoop, hr]
      rw [hc]
      constructor
      · intro m hm
        rcases List.mem_append.mp hm with hm | hm
        · exact hstep.1 m hm
        · exact ih.1 m hm
      · rintro ⟨m, hm, hl⟩
        rcases List.mem_append.mp hm with hm | hm
        · simp [hstep.2 ⟨m, hm, hl⟩]
        · simp [ih.2 ⟨m, hm, hl⟩]

theorem validate_player_availability_mem (tv : PyVal) (m : Msg)
    (hm : m ∈ (validate_player_availability tv).1) :
    m = ⟨"PLAYER_UNAVAILABLE", .warn⟩ ∨ m = ⟨"LOW_CHANCE_OF_PLAYING", .fail⟩ ∨
    m = ⟨"LOW_CHANCE_OF_PLAYING", .warn⟩ ∨ m = ⟨"AVAILABILITY_VALIDATION_ERROR", .error⟩ := by
  rcases h : pyIter tv with e | ts
  · simp only [validate_player_availability, h] at hm
    simp at hm
    simp [hm]
  · simp only [validate_player_availability, h] at hm
    rcases List.mem_append.mp hm with hm | hm
    · rcases (availLoop_shape ts).1 m hm with h2 | h2 | h2 <;> simp [h2]
    · revert hm
      split <;> simp
      intro hm
      simp [hm]

theorem validate_player_availability_fail_flag (tv : PyVal)
    (hf : ∃ m ∈ (validate_player_availability tv).1, m.level = .fail) :
    (validate_player_availability tv).2 = true := by
  obtain ⟨m, hm, hl⟩ := hf
  rcases h : pyIter tv with e | ts
  · simp only [validate_player_availability, h] at hm
    simp at hm
    rw [hm] at hl
    simp at hl
  · simp only [validate_player_availability, h] at hm ⊢
    rcases List.mem_append.mp hm with hm | hm
    · exact (availLoop_shape ts).2 ⟨m, hm, hl⟩
    · revert hm
      split <;> simp
      intro hm
      rw [hm] at hl
      simp at hl

/-- The combined sets-fail flag of the four status-touching checks. -/
def checksFlag (ts : List PyVal) (sq : PyVal) (b : Int) : Bool :=
  (singleLoop ts).2 || (validate_squad_constraints (.list ts) sq).2 ||
  (validate_budget (.list ts) sq b).2 || (validate_player_availability (.list ts)).2

/-- Decomposition of `validate_transfers` on list inputs: the status is fail
exactly when one of the status-touching checks set it, the message list is
the in-order concatenation of the six checks' messages plus the optional
override audit message, and `override_required` is set exactly when the
status is fail and no override was passed. -/
theorem validate_transfers_list_eq (ts : List PyVal) (sq : PyVal) (b g : Int)
    (c : PyVal) (o : Bool) :
    validate_transfers (.list ts) sq b g c o =
      ⟨if checksFlag ts sq b then .fail else .pass,
       (singleLoop ts).1 ++ (validate_squad_constraints (.list ts) sq).1 ++
         (validate_budget (.list ts) sq b).1 ++ validate_formation (.list ts) sq ++
         validate_chips_and_transfers (.list ts) g c ++
         (validate_player_availability (.list ts)).1 ++
         (if checksFlag ts sq b && o then [⟨"OVERRIDE_USED", .warn⟩] else []),
       checksFlag ts sq b && !o⟩ := by
  cases h1 : (singleLoop ts).2 <;>
  cases h2 : (validate_squad_constraints (.list ts) sq).2 <;>
  cases h3 : (validate_budget (.list ts) sq b).2 <;>
  cases h6 : (validate_player_availability (.list ts)).2 <;>
  cases o <;>
    simp [validate_transfers, applyCheck, pyIter, checksFlag, h1, h2, h3, h6,
      List.append_assoc]

/-- Decomposition of `validate_transfers` for any input whose top-level
iteration succeeds (lists, but also strings and dicts, which Python
iterates): same shape as `validate_transfers_list_eq`, with the checks
receiving the original `transfers` object. -/
theorem validate_transfers_iter_eq (tv : PyVal) (ts : List PyVal) (sq : PyVal)
    (b g : Int) (c : PyVal) (o : Bool) (hti : pyIter tv = .ok ts) :
    validate_transfers tv sq b g c o =
      ⟨if ((singleLoop ts).2 || (validate_squad_constraints tv sq).2 ||
          (validate_budget tv sq b).2 || (validate_player_availability tv).2)
        then .fail else .pass,
       (singleLoop ts).1 ++ (validate_squad_constraints tv sq).1 ++
         (validate_budget tv sq b).1 ++ validate_formation tv sq ++
         validate_chips_and_transfers tv g c ++
         (validate_player_availability tv).1 ++
         (if ((singleLoop ts).2 || (validate_squad_constraints tv sq).2 ||
              (validate_budget tv sq b).2 || (validate_player_availability tv).2) && o
          then [⟨"OVERRIDE_USED", .warn⟩] else []),
       ((singleLoop ts).2 || (validate_squad_constraints tv sq).2 ||
         (validate_budget tv sq b).2 || (validate_player_availability tv).2) && !o⟩ := by
  cases h1 : (singleLoop ts).2 <;>
  cases h2 : (validate_squad_constraints tv sq).2 <;>
  cases h3 : (validate_budget tv sq b).2 <;>
  cases h6 : (validate_player_availability tv).2 <;>
  cases o <;>
    simp [validate_transfers, applyCheck, hti, h1, h2, h3, h6, List.append_assoc]

theorem budgetCore_ok (tv : PyVal) (b : Int) (r : List Msg × Bool)
    (h : budgetCore tv b = .ok r) :
    r = ([⟨"INSUFFICIENT_BUDGET", .fail⟩], true) ∨ r = ([], false) := by
  unfold budgetCore at h
  rcases h0 : pyIter tv with e | ts
  · simp [h0, bind, Except.bind] at h
  simp only [h0, bind, Except.bind] at h
  rcases h1 : budgetTotals ts with e | tot
  · simp [h1, bind, Except.bind] at h
  simp only [h1, bind, Except.bind] at h
  revert h
  split <;> intro h <;> simp only [pure, Except.pure, Except.ok.injEq] at h <;> simp [← h]

theorem validate_budget_shape (tv sq : PyVal) (b : Int) :
    validate_budget tv sq b = ([⟨"INSUFFICIENT_BUDGET", .fail⟩], true) ∨
    validate_budget tv sq b = ([], false) ∨
    validate_budget tv sq b = ([⟨"BUDGET_VALIDATION_ERROR", .error⟩], true) := by
  rcases h : budgetCore tv b with e | r
  · simp [validate_budget, h]
  · rcases budgetCore_ok tv b r h with h2 | h2 <;> simp [validate_budget, h, h2]

theorem validate_budget_mem_flag (tv sq : PyVal) (b : Int)
    (hne : (validate_budget tv sq b).1 ≠ []) : (validate_budget tv sq b).2 = true := by
  rcases validate_budget_shape tv sq b with h | h | h <;> rw [h] at hne ⊢ <;> simp_all

theorem validate_budget_mem_shape (tv sq : PyVal) (b : Int) (m : Msg)
    (hm : m ∈ (validate_budget tv sq b).1) :
    m = ⟨"INSUFFICIENT_BUDGET", .fail⟩ ∨ m = ⟨"BUDGET_VALIDATION_ERROR", .error⟩ := by
  rcases validate_budget_shape tv sq b with h | h | h <;> rw [h] at hm <;> simp at hm <;>
    simp [hm]

/-! ## Concrete data used by counterexamples and witnesses -/

/-- A well-formed player dict. -/
def samplePlayer (id team et cost : Int) : PyVal :=
  .dict [("id", .int id), ("team", .int team), ("element_type", .int et),
         ("now_cost", .int cost)]

/-- A 15-player squad: the first 11 players form the legal 1-4-4-2
formation; the position table of the source caps element types 1–4 at
1+5+5+3 = 14 players, so the 15th entry, as in much real bootstrap-derived
data handled defensively by the validator, carries no `element_type` key
(the source then counts it in no position bucket).  At most 3 players per
club. -/
def sampleSquad : List PyVal :=
  [samplePlayer 1 1 1 50,
   samplePlayer 2 1 2 50, samplePlayer 3 1 2 50, samplePlayer 4 2 2 50,
   samplePlayer 5 2 2 50,
   samplePlayer 6 2 3 50, samplePlayer 7 3 3 50, samplePlayer 8 3 3 50,
   samplePlayer 9 3 3 50,
   samplePlayer 10 4 4 50, samplePlayer 11 4 4 50,
   samplePlayer 12 4 2 50, samplePlayer 13 5 3 50, samplePlayer 14 5 4 50,
   .dict [("id", .int 15), ("team", .int 5), ("now_cost", .int 50)]]

/-- A transfer selling a player costing 50 and buying one costing 200. -/
def sampleTransferOut50In200 : PyVal :=
  .dict [("element_out", samplePlayer 1 1 1 50),
         ("element_in", samplePlayer 99 6 1 200)]

/-! ## Claim theorems -/

/-- C7: `validate_transfers` is a pure function of its arguments (the
source reads no clock, randomness or instance state that its own call
mutates), so two calls with identical transfers, squad, budget, gameweek,
chips and override yield the same status, the same `override_required` and
the same sequence (hence set) of message codes. -/
theorem c7_validate_deterministic (tv sq : PyVal) (b g : Int) (c : PyVal) (o : Bool) :
    (validate_transfers tv sq b g c o).status = (validate_transfers tv sq b g c o).status ∧
    (validate_transfers tv sq b g c o).override_required =
      (validate_transfers tv sq b g c o).override_required ∧
    (validate_transfers tv sq b g c o).messages.map Msg.code =
      (validate_transfers tv sq b g c o).messages.map Msg.code :=
  ⟨rfl, rfl, rfl⟩

/-- C4, counterexample: a verdict can carry an `error`-level message while
its status stays `pass`.  With a valid 15-player squad, no transfers and
`chips = 1` (a truthy non-dict, as passed by a caller handing the raw
`chips` field through), `_validate_chips_and_transfers` raises
`AttributeError` in `chips.get`, its handler appends the `error`-level
`CHIP_VALIDATION_ERROR` message without touching the status, and no other
check fails — so the claim "any error-level message forces status fail" is
false on the code. -/
theorem c4_counterexample_error_level_without_fail :
    (∃ m ∈ (validate_transfers (.list []) (.list sampleSquad) 0 0 (.int 1) false).messages,
      m.level = .error) ∧
    (validate_transfers (.list []) (.list sampleSquad) 0 0 (.int 1) false).status ≠
      .fail := by decide

/-- C4, amended: if the accumulated message list contains any `fail`-level
message then the verdict's status is `fail`; `error`-level messages force
`fail` only when they come from the single-transfer, squad or budget
handlers (or the top-level handler), not from the formation, chips or
availability handlers. -/
theorem c4_fail_level_forces_fail (tv sq : PyVal) (b g : Int) (c : PyVal) (o : Bool)
    (hf : ∃ m ∈ (validate_transfers tv sq b g c o).messages, m.level = .fail) :
    (validate_transfers tv sq b g c o).status = .fail := by
  rcases htv : pyIter tv with e | ts
  · simp [validate_transfers, htv]
  · rw [validate_transfers_iter_eq tv ts sq b g c o htv] at hf ⊢
    obtain ⟨m, hm, hl⟩ := hf
    cases hF : ((singleLoop ts).2 || (validate_squad_constraints tv sq).2 ||
        (validate_budget tv sq b).2 || (validate_player_availability tv).2)
    · exfalso
      rw [hF] at hm
      simp only [Bool.or_eq_false_iff] at hF
      obtain ⟨⟨⟨hF1, hF2⟩, hF3⟩, hF6⟩ := hF
      simp only [Bool.false_and, if_false, List.append_nil, List.mem_append,
        Bool.false_eq_true] at hm
      rcases hm with ((((hm | hm) | hm) | hm) | hm) | hm
      · exact absurd (singleLoop_mem_flag ts m hm) (by simp [hF1])
      · exact absurd (validate_squad_constraints_flag tv sq (List.ne_nil_of_mem hm))
          (by simp [hF2])
      · exact absurd (validate_budget_mem_flag tv sq b (List.ne_nil_of_mem hm))
          (by simp [hF3])
      · rcases validate_formation_mem tv sq m hm with h | h <;> rw [h] at hl <;> simp at hl
      · rcases validate_chips_mem tv g c m hm with h | h <;> rw [h] at hl <;> simp at hl
      · exact absurd (validate_player_availability_fail_flag tv ⟨m, hm, hl⟩)
          (by simp [hF6])
    · simp [hF]

/-- C4, witness for the amended theorem: an empty squad makes the squad-size
check append a `fail`-level message, and the verdict's status is `fail`. -/
theorem c4_fail_level_forces_fail_witness :
    (∃ m ∈ (validate_transfers (.list []) (.list []) 0 0 .none false).messages,
      m.level = .fail) ∧
    (validate_transfers (.list []) (.list []) 0 0 .none false).status = .fail :=
  ⟨by decide, c4_fail_level_forces_fail (.list []) (.list []) 0 0 .none false (by decide)⟩

/-- C2: for a transfer batch whose entries are budget-well-formed (dict
transfers with integer prices, so the budget check raises nothing), the
verdict of `validate_transfers` contains the `INSUFFICIENT_BUDGET` message
exactly when the sum of incoming costs minus the sum of outgoing sale
costs exceeds the budget, and in that case the status is `fail`; when the
budget is not exceeded the message is absent (the reverse direction of the
iff). -/
theorem c2_budget_check_iff (ts : List PyVal) (sq : PyVal) (b g : Int) (c : PyVal)
    (o : Bool) (hwf : ∀ t ∈ ts, wfBudgetT t = true) :
    ((⟨"INSUFFICIENT_BUDGET", Level.fail⟩ : Msg) ∈
        (validate_transfers (.list ts) sq b g c o).messages ↔
      totalCost ts - totalSold ts > b) ∧
    (totalCost ts - totalSold ts > b →
      (validate_transfers (.list ts) sq b g c o).status = .fail) := by
  have hb := validate_budget_wf ts sq b hwf
  have harith : (b + totalSold ts - totalCost ts < 0) ↔ (totalCost ts - totalSold ts > b) := by
    omega
  rw [validate_transfers_list_eq]
  refine ⟨⟨?_, ?_⟩, ?_⟩
  · intro hm
    simp only [List.mem_append] at hm
    rcases hm with (((((hm | hm) | hm) | hm) | hm) | hm) | hm
    · rcases singleLoop_mem_shape ts _ hm with h | h | h <;> exact absurd h (by decide)
    · rcases validate_squad_constraints_mem (.list ts) sq _ hm with h | h | h | h <;>
        exact absurd h (by decide)
    · rw [hb] at hm
      revert hm
      split
      · intro _
        exact harith.mp (by assumption)
      · intro hm
        simp at hm
    · rcases validate_formation_mem (.list ts) sq _ hm with h | h <;>
        exact absurd h (by decide)
    · rcases validate_chips_mem (.list ts) g c _ hm with h | h <;>
        exact absurd h (by decide)
    · rcases validate_player_availability_mem (.list ts) _ hm with h | h | h | h <;>
        exact absurd h (by decide)
    · revert hm
      split
      · intro hm
        simp at hm
      · intro hm
        simp at hm
  · intro hgt
    have hcond : b + totalSold ts - totalCost ts < 0 := harith.mpr hgt
    simp only [List.mem_append]
    refine Or.inl (Or.inl (Or.inl (Or.inl (Or.inr ?_))))
    rw [hb, if_pos hcond]
    simp
  · intro hgt
    have hcond : b + totalSold ts - totalCost ts < 0 := harith.mpr hgt
    have hflag : (validate_budget (.list ts) sq b).2 = true := by
      rw [hb, if_pos hcond]
    simp [checksFlag, hflag]

/-- C2, witness: the spec's own scenario (sell 50, buy 200, budget 1000 —
not exceeded, message absent) instantiated through the theorem. -/
theorem c2_budget_check_iff_witness :
    (∀ t ∈ [sampleTransferOut50In200], wfBudgetT t = true) ∧
    (((⟨"INSUFFICIENT_BUDGET", Level.fail⟩ : Msg) ∈
        (validate_transfers (.list [sampleTransferOut50In200]) (.list sampleSquad)
          1000 0 .none false).messages ↔
      totalCost [sampleTransferOut50In200] - totalSold [sampleTransferOut50In200] > 1000) ∧
    (totalCost [sampleTransferOut50In200] - totalSold [sampleTransferOut50In200] > 1000 →
      (validate_transfers (.list [sampleTransferOut50In200]) (.list sampleSquad)
        1000 0 .none false).status = .fail)) :=
  ⟨by decide, c2_budget_check_iff [sampleTransferOut50In200] (.list sampleSquad)
    1000 0 .none false (by decide)⟩

/-- The `status` field of a transfer's player-in (`'a'` default). -/
def statusOf (t : PyVal) : PyVal := dictGetD (inPlayer t) "status" (.str "a")

/-- The `chance_of_playing_next_round` field of a transfer's player-in
(`None` default). -/
def chanceOf (t : PyVal) : PyVal :=
  dictGetD (inPlayer t) "chance_of_playing_next_round" .none

/-- A transfer is availability-well-formed when it is a dict whose
player-in is a truthy dict and whose chance field is `None` or an int, so
the availability check raises nothing on it. -/
def wfAvailT (t : PyVal) : Bool :=
  t.isDict && (inPlayer t).truthy && (inPlayer t).isDict &&
    (match chanceOf t with
     | .none => true
     | .int _ => true
     | _ => false)

/-- Messages the availability check emits for one transfer's status
field. -/
def statusMsgs (t : PyVal) : List Msg :=
  if !pyEq (statusOf t) (.str "a") then [⟨"PLAYER_UNAVAILABLE", .warn⟩] else []

/-- Messages the availability check emits for one transfer's chance
field. -/
def chanceMsgs (t : PyVal) : List Msg :=
  match chanceOf t with
  | .int c =>
    if c < 75 then [⟨"LOW_CHANCE_OF_PLAYING", if c < 25 then .fail else .warn⟩] else []
  | _ => []

/-- Whether the availability check sets the status to fail for one
transfer: exactly a known chance below 25. -/
def availStepFlag (t : PyVal) : Bool :=
  match chanceOf t with
  | .int c => decide (c < 25)
  | _ => false

theorem availStep_wf (t : PyVal) (h : wfAvailT t = true) :
    availStep t = (statusMsgs t ++ chanceMsgs t, availStepFlag t, false) := by
  simp only [wfAvailT, Bool.and_eq_true] at h
  obtain ⟨⟨⟨hd, hpt⟩, hpd⟩, hch⟩ := h
  simp only [availStep, getPlayer_in_eq t hd, hpt, hpd, Bool.and_self, if_true]
  have hfold : dictGetD (inPlayer t) "chance_of_playing_next_round" PyVal.none =
      chanceOf t := rfl
  rw [hfold]
  rcases hc : chanceOf t with _ | bb | n | ss | xs | es <;> rw [hc] at hch <;>
    simp at hch
  · simp [statusMsgs, chanceMsgs, availStepFlag, statusOf, hc]
  · by_cases h75 : n < 75
    · by_cases h25 : n < 25 <;>
        simp [pyNum, h75, h25, statusMsgs, chanceMsgs, availStepFlag, statusOf, hc]
    · simp [pyNum, h75, statusMsgs, chanceMsgs, availStepFlag, statusOf, hc]
      omega

theorem availLoop_wf (ts : List PyVal) (h : ∀ t ∈ ts, wfAvailT t = true) :
    availLoop ts = ((ts.map (fun t => statusMsgs t ++ chanceMsgs t)).flatten,
      ts.any availStepFlag, false) := by
  induction ts with
  | nil => simp [availLoop]
  | cons t rest ih =>
    have h1 := availStep_wf t (h t (by simp))
    have h2 := ih (fun x hx => h x (by simp [hx]))
    simp [availLoop, h1, h2]

theorem validate_player_availability_wf (ts : List PyVal)
    (h : ∀ t ∈ ts, wfAvailT t = true) :
    validate_player_availability (.list ts) =
      ((ts.map (fun t => statusMsgs t ++ chanceMsgs t)).flatten, ts.any availStepFlag) := by
  simp [validate_player_availability, pyIter, availLoop_wf ts h]

/-- C6: over availability-well-formed transfer batches (dict transfers with
a truthy dict player-in and a `None`-or-int chance field), every incoming
player whose status is not `'a'` contributes a warn-level
`PLAYER_UNAVAILABLE` message; a known chance below 25 contributes a
fail-level `LOW_CHANCE_OF_PLAYING` message and forces the verdict's status
to fail; a known chance in `[25, 75)` contributes a warn-level
`LOW_CHANCE_OF_PLAYING` message, and when every known chance is at least 25
the availability check does not set the fail status at all. -/
theorem c6_player_availability (ts : List PyVal) (sq : PyVal) (b g : Int) (c : PyVal)
    (o : Bool) (hwf : ∀ t ∈ ts, wfAvailT t = true) :
    (∀ t ∈ ts, pyEq (statusOf t) (.str "a") = false →
      (⟨"PLAYER_UNAVAILABLE", Level.warn⟩ : Msg) ∈
        (validate_transfers (.list ts) sq b g c o).messages) ∧
    (∀ t ∈ ts, ∀ ch : Int, chanceOf t = .int ch → ch < 25 →
      (⟨"LOW_CHANCE_OF_PLAYING", Level.fail⟩ : Msg) ∈
        (validate_transfers (.list ts) sq b g c o).messages ∧
      (validate_transfers (.list ts) sq b g c o).status = .fail) ∧
    (∀ t ∈ ts, ∀ ch : Int, chanceOf t = .int ch → 25 ≤ ch → ch < 75 →
      (⟨"LOW_CHANCE_OF_PLAYING", Level.warn⟩ : Msg) ∈
        (validate_transfers (.list ts) sq b g c o).messages) ∧
    ((∀ t ∈ ts, ∀ ch : Int, chanceOf t = .int ch → 25 ≤ ch) →
      (validate_player_availability (.list ts)).2 = false) := by
  have hav := validate_player_availability_wf ts hwf
  have hmem : ∀ m : Msg, m ∈ (validate_player_availability (.list ts)).1 →
      m ∈ (validate_transfers (.list ts) sq b g c o).messages := by
    intro m hm
    rw [validate_transfers_list_eq]
    simp only [List.mem_append]
    exact Or.inl (Or.inr hm)
  have hstepmem : ∀ t ∈ ts, ∀ m : Msg, m ∈ statusMsgs t ++ chanceMsgs t →
      m ∈ (validate_player_availability (.list ts)).1 := by
    intro t ht m hm
    rw [hav]
    exact List.mem_flatten.mpr ⟨statusMsgs t ++ chanceMsgs t,
      List.mem_map_of_mem _ ht, hm⟩
  refine ⟨?_, ?_, ?_, ?_⟩
  · intro t ht hst
    refine hmem _ (hstepmem t ht _ (List.mem_append_left _ ?_))
    simp [statusMsgs, hst]
  · intro t ht ch hc25 h25
    have hin : (⟨"LOW_CHANCE_OF_PLAYING", Level.fail⟩ : Msg) ∈ chanceMsgs t := by
      simp [chanceMsgs, hc25, h25, show ch < 75 by omega]
    refine ⟨hmem _ (hstepmem t ht _ (List.mem_append_right _ hin)), ?_⟩
    have hflag : (validate_player_availability (.list ts)).2 = true := by
      rw [hav]
      exact List.any_eq_true.mpr ⟨t, ht, by simp [availStepFlag, hc25, h25]⟩
    rw [validate_transfers_list_eq]
    simp [checksFlag, hflag]
  · intro t ht ch hc25 hge h75
    have hin : (⟨"LOW_CHANCE_OF_PLAYING", Level.warn⟩ : Msg) ∈ chanceMsgs t := by
      simp [chanceMsgs, hc25, h75, show ¬ch < 25 by omega]
    exact hmem _ (hstepmem t ht _ (List.mem_append_right _ hin))
  · intro hall
    rw [hav]
    simp only [List.any_eq_false]
    intro t ht
    rcases hc : chanceOf t with _ | bb | n | ss | xs | es <;> simp [availStepFlag, hc]
    exact hall t ht n hc

/-- A transfer whose incoming player has status `'i'` and chance 10. -/
def sampleUnavailableTransfer : PyVal :=
  .dict [("element_in",
    .dict [("id", .int 99), ("team", .int 6), ("element_type", .int 1),
           ("now_cost", .int 50), ("status", .str "i"),
           ("chance_of_playing_next_round", .int 10)]),
    ("element_out", samplePlayer 1 1 1 50)]

/-- C6, witness: a batch with one incoming player of status `'i'` and
chance 10 — both messages present and the verdict fails. -/
theorem c6_player_availability_witness :
    (∀ t ∈ [sampleUnavailableTransfer], wfAvailT t = true) ∧
    (⟨"PLAYER_UNAVAILABLE", Level.warn⟩ : Msg) ∈
      (validate_transfers (.list [sampleUnavailableTransfer]) (.list sampleSquad)
        1000 0 .none false).messages ∧
    (⟨"LOW_CHANCE_OF_PLAYING", Level.fail⟩ : Msg) ∈
      (validate_transfers (.list [sampleUnavailableTransfer]) (.list sampleSquad)
        1000 0 .none false).messages ∧
    (validate_transfers (.list [sampleUnavailableTransfer]) (.list sampleSquad)
      1000 0 .none false).status = .fail := by
  have hwf : ∀ t ∈ [sampleUnavailableTransfer], wfAvailT t = true := by decide
  have h := c6_player_availability [sampleUnavailableTransfer] (.list sampleSquad)
    1000 0 .none false hwf
  refine ⟨hwf, ?_, ?_, ?_⟩
  · exact h.1 sampleUnavailableTransfer (by simp) (by decide)
  · exact (h.2.1 sampleUnavailableTransfer (by simp) 10 rfl (by decide)).1
  · exact (h.2.1 sampleUnavailableTransfer (by simp) 10 rfl (by decide)).2

/-- A chips argument with no active wildcard or free-hit: either falsy
(e.g. `None` or `{}`), or a dict whose `wildcard` and `freehit` values are
falsy.  (A truthy non-dict makes `chips.get` raise instead.) -/
def noActiveChip (chips : PyVal) : Bool :=
  if chips.truthy then
    chips.isDict && !(dictGetD chips "wildcard" (.bool false)).truthy &&
      !(dictGetD chips "freehit" (.bool false)).truthy
  else true

theorem chipsCore_noActive (ts : List PyVal) (ch : PyVal) (h : noActiveChip ch = true) :
    chipsCore (.list ts) ch =
      .ok (if ts.length > TRANSFERS_PER_GW then
        [⟨"TRANSFER_LIMIT_EXCEEDED", .warn⟩] else []) := by
  unfold chipsCore
  by_cases hng : ts.length > TRANSFERS_PER_GW <;> by_cases hc : ch.truthy = true
  · rw [noActiveChip, if_pos hc] at h
    simp only [Bool.and_eq_true, Bool.not_eq_true'] at h
    obtain ⟨⟨hd, hw⟩, hf⟩ := h
    cases ch <;> simp [PyVal.isDict] at hd
    simp [pyGet, bind, Except.bind, hw, hf, pyLen, pure, Except.pure, hng, hc]
  · rw [noActiveChip, if_neg hc] at h
    simp only [Bool.not_eq_true] at hc
    simp [hc, bind, Except.bind, pure, Except.pure, pyLen, hng]
  · rw [noActiveChip, if_pos hc] at h
    simp only [Bool.and_eq_true, Bool.not_eq_true'] at h
    obtain ⟨⟨hd, hw⟩, hf⟩ := h
    cases ch <;> simp [PyVal.isDict] at hd
    simp [pyGet, bind, Except.bind, hw, hf, pyLen, pure, Except.pure, hng, hc]
  · rw [noActiveChip, if_neg hc] at h
    simp only [Bool.not_eq_true] at hc
    simp [hc, bind, Except.bind, pure, Except.pure, pyLen, hng]

/-- C8: a batch of more than `TRANSFERS_PER_GW` (2) transfers with no
active wildcard or free-hit chip yields the `TRANSFER_LIMIT_EXCEEDED`
message at warn level, and the chips/transfer-count check never emits a
fail-level message (its messages are warn or error only), so it alone
never sets the verdict's status to fail — in the model its delta is wired
into the verdict with the sets-fail flag constantly false. -/
theorem c8_transfer_limit_warn (ts : List PyVal) (sq : PyVal) (b g : Int) (ch : PyVal)
    (o : Bool) (hlen : ts.length > TRANSFERS_PER_GW) (hchip : noActiveChip ch = true) :
    (⟨"TRANSFER_LIMIT_EXCEEDED", Level.warn⟩ : Msg) ∈
      (validate_transfers (.list ts) sq b g ch o).messages ∧
    (∀ tv : PyVal, ∀ g2 : Int, ∀ c2 : PyVal, ∀ m : Msg,
      m ∈ validate_chips_and_transfers tv g2 c2 → m.level ≠ .fail) ∧
    (∀ tv : PyVal, ∀ g2 : Int, ∀ c2 : PyVal, ∀ v : Verdict,
      (applyCheck v (validate_chips_and_transfers tv g2 c2, false)).status = v.status) := by
  refine ⟨?_, ?_, fun tv g2 c2 v => rfl⟩
  · have hch := chipsCore_noActive ts ch hchip
    have hdelta : validate_chips_and_transfers (.list ts) g ch =
        [⟨"TRANSFER_LIMIT_EXCEEDED", .warn⟩] := by
      simp [validate_chips_and_transfers, hch, hlen]
    rw [validate_transfers_list_eq]
    simp only [List.mem_append]
    refine Or.inl (Or.inl (Or.inr ?_))
    rw [hdelta]
    simp
  · intro tv g2 c2 m hm
    rcases validate_chips_mem tv g2 c2 m hm with h | h <;> rw [h] <;> simp

/-- C8, witness: five identical transfers, `chips = None`. -/
theorem c8_transfer_limit_warn_witness :
    ([sampleTransferOut50In200, sampleTransferOut50In200, sampleTransferOut50In200,
      sampleTransferOut50In200, sampleTransferOut50In200].length > TRANSFERS_PER_GW) ∧
    noActiveChip .none = true ∧
    (⟨"TRANSFER_LIMIT_EXCEEDED", Level.warn⟩ : Msg) ∈
      (validate_transfers (.list [sampleTransferOut50In200, sampleTransferOut50In200,
        sampleTransferOut50In200, sampleTransferOut50In200, sampleTransferOut50In200])
        (.list sampleSquad) 10000 0 .none false).messages :=
  ⟨by decide, by decide,
    (c8_transfer_limit_warn [sampleTransferOut50In200, sampleTransferOut50In200,
      sampleTransferOut50In200, sampleTransferOut50In200, sampleTransferOut50In200]
      (.list sampleSquad) 10000 0 .none false (by decide) (by decide)).1⟩

theorem validate_squad_constraints_badsquad (tv sq : PyVal) (hsq : pyIter sq = .error ()) :
    validate_squad_constraints tv sq = ([⟨"SQUAD_CONSTRAINT_ERROR", .error⟩], true) := by
  simp [validate_squad_constraints, squadCore, hsq, bind, Except.bind]

theorem validate_formation_badsquad (tv sq : PyVal) (hsq : pyIter sq = .error ()) :
    validate_formation tv sq = [⟨"FORMATION_VALIDATION_ERROR", .error⟩] := by
  simp [validate_formation, formationCore, hsq, bind, Except.bind]

theorem validate_chips_badchips (tv : PyVal) (g : Int) (c : PyVal)
    (hct : c.truthy = true) (hcd : c.isDict = false) :
    validate_chips_and_transfers tv g c = [⟨"CHIP_VALIDATION_ERROR", .error⟩] := by
  cases c <;> simp [PyVal.isDict] at hcd <;>
    simp [validate_chips_and_transfers, chipsCore, hct, pyGet, bind, Except.bind]

/-- C10: `validate_transfers` is total over arbitrary (also malformed)
inputs — in the model it returns a `Verdict` for every `PyVal` input
because every exception of the dynamic semantics is routed to a handler.
When the top-level `enumerate(transfers)` iteration itself raises
(transfers not iterable), the returned verdict is `fail` with the single
error-level `VALIDATION_ERROR` message and `override_required = false`;
errors raised inside individual checks are converted into the checks' own
error-level messages appended to the verdict (shown here for a
non-iterable squad, which makes the squad and formation handlers fire, and
for a truthy non-dict chips value, which makes the chips handler fire)
rather than propagating. -/
theorem c10_validate_total (tv sq : PyVal) (b g : Int) (c : PyVal) (o : Bool) :
    (pyIter tv = .error () →
      validate_transfers tv sq b g c o =
        ⟨.fail, [⟨"VALIDATION_ERROR", .error⟩], false⟩) ∧
    (∀ ts : List PyVal, tv = .list ts → pyIter sq = .error () →
      (⟨"SQUAD_CONSTRAINT_ERROR", Level.error⟩ : Msg) ∈
          (validate_transfers tv sq b g c o).messages ∧
        (⟨"FORMATION_VALIDATION_ERROR", Level.error⟩ : Msg) ∈
          (validate_transfers tv sq b g c o).messages) ∧
    (∀ ts : List PyVal, tv = .list ts → c.truthy = true → c.isDict = false →
      (⟨"CHIP_VALIDATION_ERROR", Level.error⟩ : Msg) ∈
        (validate_transfers tv sq b g c o).messages) := by
  refine ⟨?_, ?_, ?_⟩
  · intro h
    simp [validate_transfers, h]
  · intro ts htv hsq
    subst htv
    rw [validate_transfers_list_eq]
    simp only [List.mem_append]
    constructor
    · refine Or.inl (Or.inl (Or.inl (Or.inl (Or.inl (Or.inr ?_)))))
      rw [validate_squad_constraints_badsquad _ _ hsq]
      simp
    · refine Or.inl (Or.inl (Or.inl (Or.inr ?_)))
      rw [validate_formation_badsquad _ _ hsq]
      simp
  · intro ts htv hct hcd
    subst htv
    rw [validate_transfers_list_eq]
    simp only [List.mem_append]
    refine Or.inl (Or.inl (Or.inr ?_))
    rw [validate_chips_badchips _ g _ hct hcd]
    simp

/-- C10, witness: a non-iterable transfers value, a non-iterable squad and
a truthy non-dict chips value, all handled. -/
theorem c10_validate_total_witness :
    validate_transfers (.int 7) (.int 0) 0 0 .none false =
      ⟨.fail, [⟨"VALIDATION_ERROR", .error⟩], false⟩ ∧
    (⟨"SQUAD_CONSTRAINT_ERROR", Level.error⟩ : Msg) ∈
      (validate_transfers (.list []) (.int 0) 0 0 (.int 1) false).messages ∧
    (⟨"FORMATION_VALIDATION_ERROR", Level.error⟩ : Msg) ∈
      (validate_transfers (.list []) (.int 0) 0 0 (.int 1) false).messages ∧
    (⟨"CHIP_VALIDATION_ERROR", Level.error⟩ : Msg) ∈
      (validate_transfers (.list []) (.int 0) 0 0 (.int 1) false).messages :=
  ⟨(c10_validate_total (.int 7) (.int 0) 0 0 .none false).1 rfl,
   ((c10_validate_total (.list []) (.int 0) 0 0 (.int 1) false).2.1 [] rfl rfl).1,
   ((c10_validate_total (.list []) (.int 0) 0 0 (.int 1) false).2.1 [] rfl rfl).2,
   (c10_validate_total (.list []) (.int 0) 0 0 (.int 1) false).2.2 [] rfl rfl rfl⟩

/-- C1 (documents the bug): with the per-account failure counter already at
`max_refresh_attempts` (3), `SessionManager.refresh_session` still calls
`fpl_api_instance._authenticate()` — one authentication network/IO attempt
— before returning failure and bumping the counter to 4 while only logging
a "disabled" security event; and `FPLAPI._ensure_authenticated` consults
no failure counter at all, so in a no-session state with failing
credentials it likewise performs an authentication attempt.  The spec's
required short-circuit ("returns failure immediately without any network
call") does not exist in the code. -/
theorem c1_disable_short_circuit_bug :
    refresh_session 3 0 3600 false =
      ⟨false, 4, 1, true, Option.none⟩ ∧
    (refresh_session 3 0 3600 true).authCalls = 1 ∧
    ensure_authenticated false false false false = ⟨false, 1⟩ := by
  decide

/-- C9: the expiry-window checks.  `FPLAPI._is_session_expired` (with the
default 3600 s lifetime and 300 s renewal window) answers true exactly when
`now > (lastAuthTime + sessionLifetime) - renewalWindow`, for any non-zero
`lastAuthTime` (a zero timestamp is Python-falsy and short-circuits to
true); `SessionManager.is_session_expiring_soon` answers true exactly when
`now > expiresAt - refreshWindow`.  In particular
`lastAuthTime = now - (3600 - 300 + 1)` gives true and
`lastAuthTime = now` gives false. -/
theorem c9_session_expiry_window (now t expires_at : Int) :
    (t ≠ 0 →
      (is_session_expired now (some t) SESSION_EXPIRES_IN MIN_SESSION_TIME = true ↔
        now > (t + SESSION_EXPIRES_IN) - MIN_SESSION_TIME)) ∧
    (is_session_expiring_soon now (some expires_at) REFRESH_WINDOW = true ↔
      now > expires_at - REFRESH_WINDOW) ∧
    (now ≠ 3301 →
      is_session_expired now (some (now - (SESSION_EXPIRES_IN - MIN_SESSION_TIME + 1)))
        SESSION_EXPIRES_IN MIN_SESSION_TIME = true) ∧
    (now ≠ 0 →
      is_session_expired now (some now) SESSION_EXPIRES_IN MIN_SESSION_TIME = false) := by
  refine ⟨?_, ?_, ?_, ?_⟩
  · intro ht
    simp [is_session_expired, ht, SESSION_EXPIRES_IN, MIN_SESSION_TIME]
    omega
  · simp [is_session_expiring_soon]
  · intro hne
    have : now - (SESSION_EXPIRES_IN - MIN_SESSION_TIME + 1) ≠ 0 := by
      simp [SESSION_EXPIRES_IN, MIN_SESSION_TIME]
      omega
    simp [is_session_expired, this, SESSION_EXPIRES_IN, MIN_SESSION_TIME]
  · intro hne
    simp [is_session_expired, hne, SESSION_EXPIRES_IN, MIN_SESSION_TIME]

/-- C9, witness: the two spec instances at `now = 1000000`, plus the
expiring-soon form at a concrete stored expiry. -/
theorem c9_session_expiry_window_witness :
    is_session_expired 1000000 (some (1000000 - 3301)) SESSION_EXPIRES_IN
      MIN_SESSION_TIME = true ∧
    is_session_expired 1000000 (some 1000000) SESSION_EXPIRES_IN
      MIN_SESSION_TIME = false ∧
    (is_session_expiring_soon 1000000 (some 1000200) REFRESH_WINDOW = true ↔
      (1000000 : Int) > 1000200 - REFRESH_WINDOW) :=
  ⟨by
    have h := (c9_session_expiry_window 1000000 500 1000200).2.2.1 (by decide)
    simpa using h,
   (c9_session_expiry_window 1000000 500 1000200).2.2.2 (by decide),
   (c9_session_expiry_window 1000000 500 1000200).2.1⟩

/-- Outcomes whose classification raises a retryable exception from the
request body: connection/timeout errors, the retryable HTTP statuses
429/500/502/503, and a 401 (whose branch either raises the retryable
re-auth marker or returns, depending on the re-authentication result). -/
def retryableOutcome : Outcome → Bool
  | .connError => true
  | .timeout => true
  | .http c => c == 401 || c == 429 || c == 500 || c == 502 || c == 503
  | .ok _ => false

/-- The retryable exception produced by a retryable outcome (401 with a
successful re-authentication raises the re-auth marker). -/
def errOf : Outcome → RetryErr
  | .connError => .connE
  | .timeout => .timeoutE
  | .http c => if c == 401 then .reauthRetry else .retryableHTTP c
  | .ok _ => .connE

theorem requestBody_oIdx_le (cacheable authenticated ensureOk sessionAvail : Bool)
    (ttl now : Int) (url : String) (outcomes : Nat → Outcome) (reauths : Nat → Bool)
    (cache : Cache) (oIdx rIdx : Nat) :
    (requestBody cacheable authenticated ensureOk sessionAvail ttl now url outcomes
      reauths cache oIdx rIdx).oIdx ≤ oIdx + 1 := by
  unfold requestBody
  by_cases hhit : (cacheable && (is_cached cache ttl now url).1.1) = true
  · simp [hhit]
  · simp only [hhit, if_false, Bool.false_eq_true]
    repeat' split
    all_goals simp

theorem tenacityLoop_oIdx_le (cacheable authenticated ensureOk sessionAvail : Bool)
    (ttl now : Int) (url : String) (outcomes : Nat → Outcome) (reauths : Nat → Bool)
    (k : Nat) (cache : Cache) (oIdx rIdx : Nat) :
    (tenacityLoop cacheable authenticated ensureOk sessionAvail ttl now url outcomes
      reauths k cache oIdx rIdx).oIdx ≤ oIdx + k := by
  induction k generalizing cache oIdx rIdx with
  | zero => simp [tenacityLoop]
  | succ n ih =>
    have hb := requestBody_oIdx_le cacheable authenticated ensureOk sessionAvail
      ttl now url outcomes reauths cache oIdx rIdx
    simp only [tenacityLoop]
    cases hr : (requestBody cacheable authenticated ensureOk sessionAvail ttl now url
        outcomes reauths cache oIdx rIdx).result <;> simp only [hr]
    · split
      · omega
      · have h2 := ih (requestBody cacheable authenticated ensureOk sessionAvail ttl
          now url outcomes reauths cache oIdx rIdx).cache
          (requestBody cacheable authenticated ensureOk sessionAvail ttl now url
            outcomes reauths cache oIdx rIdx).oIdx
          (requestBody cacheable authenticated ensureOk sessionAvail ttl now url
            outcomes reauths cache oIdx rIdx).rIdx
        omega
    · omega

theorem requestBody_retryable_eq (ttl now : Int) (url : String)
    (outcomes : Nat → Outcome) (reauths : Nat → Bool) (cache : Cache) (oIdx rIdx : Nat)
    (hro : retryableOutcome (outcomes oIdx) = true) (hra : ∀ j, reauths j = true) :
    requestBody false false true true ttl now url outcomes reauths cache oIdx rIdx =
      ⟨.error (errOf (outcomes oIdx)), cache, oIdx + 1,
        rIdx + (if outcomes oIdx = .http 401 then 1 else 0)⟩ := by
  cases ho : outcomes oIdx with
  | ok b => rw [ho] at hro; simp [retryableOutcome] at hro
  | connError => simp [requestBody, ho, errOf]
  | timeout => simp [requestBody, ho, errOf]
  | http code =>
    rw [ho] at hro
    simp only [retryableOutcome, Bool.or_eq_true, beq_iff_eq] at hro
    rcases hro with ((((h | h) | h) | h) | h) <;> subst h <;>
      simp [requestBody, ho, errOf, hra rIdx]

theorem requestBody_terminal_eq (ttl now : Int) (url : String)
    (outcomes : Nat → Outcome) (reauths : Nat → Bool) (cache : Cache) (oIdx rIdx : Nat)
    (c2 : Nat) (ho : outcomes oIdx = .http c2)
    (hnr : retryableOutcome (.http c2) = false) :
    requestBody false false true true ttl now url outcomes reauths cache oIdx rIdx =
      ⟨.ok Option.none, cache, oIdx + 1, rIdx⟩ := by
  simp only [retryableOutcome, Bool.or_eq_false_iff, beq_eq_false_iff_ne] at hnr
  obtain ⟨⟨⟨⟨h1, h2⟩, h3⟩, h4⟩, h5⟩ := hnr
  simp [requestBody, ho, h1, h2, h3, h4, h5]

theorem tenacityLoop_retryable (ttl now : Int) (url : String)
    (outcomes : Nat → Outcome) (reauths : Nat → Bool) :
    ∀ k oIdx rIdx : Nat, ∀ cache : Cache, 1 ≤ k →
    (∀ i, i < k → retryableOutcome (outcomes (oIdx + i)) = true) →
    (∀ j, reauths j = true) →
    (tenacityLoop false false true true ttl now url outcomes reauths k cache
        oIdx rIdx).result = .error (errOf (outcomes (oIdx + (k - 1)))) ∧
    (tenacityLoop false false true true ttl now url outcomes reauths k cache
        oIdx rIdx).oIdx = oIdx + k := by
  intro k
  induction k with
  | zero => intro _ _ _ hk; exact absurd hk (by omega)
  | succ n ih =>
    intro oIdx rIdx cache hk hro hra
    have hstep := requestBody_retryable_eq ttl now url outcomes reauths cache oIdx rIdx
      (by simpa using hro 0 (by omega)) hra
    simp only [tenacityLoop, hstep]
    by_cases hn : n = 0
    · subst hn
      simp
    · have hsh : ∀ i, i < n → retryableOutcome (outcomes (oIdx + 1 + i)) = true := by
        intro i hi
        have := hro (i + 1) (by omega)
        have heq : oIdx + (i + 1) = oIdx + 1 + i := by omega
        rwa [heq] at this
      have hih := ih (oIdx + 1) (rIdx + if outcomes oIdx = .http 401 then 1 else 0)
        cache (by omega) hsh hra
      have heq1 : oIdx + 1 + (n - 1) = oIdx + n := by omega
      have heq2 : oIdx + 1 + n = oIdx + (n + 1) := by omega
      rw [heq1, heq2] at hih
      have hne : (n == 0) = false := by simpa using hn
      simp [hne, hih.1, hih.2]

theorem tenacityLoop_terminal (ttl now : Int) (url : String)
    (outcomes : Nat → Outcome) (reauths : Nat → Bool) (c2 : Nat)
    (hnr : retryableOutcome (.http c2) = false) :
    ∀ j k oIdx rIdx : Nat, ∀ cache : Cache, j < k →
    (∀ i, i < j → retryableOutcome (outcomes (oIdx + i)) = true) →
    (∀ r, reauths r = true) →
    outcomes (oIdx + j) = .http c2 →
    (tenacityLoop false false true true ttl now url outcomes reauths k cache
        oIdx rIdx).result = .ok Option.none ∧
    (tenacityLoop false false true true ttl now url outcomes reauths k cache
        oIdx rIdx).oIdx = oIdx + j + 1 := by
  intro j
  induction j with
  | zero =>
    intro k oIdx rIdx cache hk hro hra ho
    cases k with
    | zero => exact absurd hk (by omega)
    | succ m =>
      have hstep := requestBody_terminal_eq ttl now url outcomes reauths cache oIdx
        rIdx c2 (by simpa using ho) hnr
      simp [tenacityLoop, hstep]
  | succ n ih =>
    intro k oIdx rIdx cache hk hro hra ho
    cases k with
    | zero => exact absurd hk (by omega)
    | succ m =>
      have hstep := requestBody_retryable_eq ttl now url outcomes reauths cache oIdx
        rIdx (by simpa using hro 0 (by omega)) hra
      simp only [tenacityLoop, hstep]
      have hm : m ≠ 0 := by omega
      have hne : (m == 0) = false := by simpa using hm
      have hsh : ∀ i, i < n → retryableOutcome (outcomes (oIdx + 1 + i)) = true := by
        intro i hi
        have := hro (i + 1) (by omega)
        have heq : oIdx + (i + 1) = oIdx + 1 + i := by omega
        rwa [heq] at this
      have ho2 : outcomes (oIdx + 1 + n) = .http c2 := by
        have heq : oIdx + 1 + n = oIdx + (n + 1) := by omega
        rwa [heq]
      have hih := ih m (oIdx + 1) (rIdx + if outcomes oIdx = .http 401 then 1 else 0)
        cache (by omega) hsh hra ho2
      have heq3 : oIdx + 1 + n + 1 = oIdx + (n + 1) + 1 := by omega
      rw [heq3] at hih
      simp [hne, hih.1, hih.2]

/-- C3: the retry policy of `_make_request_with_retry` under tenacity's
`stop_after_attempt(5)`.  (1) Any decorated call makes at most 5 network
attempts, whatever the upstream outcomes.  (2) If the first five outcomes
are all retryable (connection/timeout errors, HTTP 429/500/502/503, or a
401 with succeeding re-authentication), the call makes exactly 5 attempts
and hands the caller the exception corresponding to the 5th outcome
(`reraise=True`).  (3) A non-200, non-401, non-retryable HTTP status
reached after some retryable outcomes makes the body return `None`
immediately: no further attempts.  (4) One 401 outcome consumes exactly one
`_authenticate()` call: on success the body raises the retryable marker so
the next attempt follows, on failure it returns `None` terminally. -/
theorem c3_retry_policy (outcomes : Nat → Outcome) (reauths : Nat → Bool)
    (cacheable authenticated ensureOk sessionAvail : Bool) (ttl now : Int)
    (url : String) (cache : Cache) :
    (make_request_with_retry cacheable authenticated ensureOk sessionAvail ttl now url
      outcomes reauths cache).oIdx ≤ 5 ∧
    ((∀ i, i < 5 → retryableOutcome (outcomes i) = true) → (∀ j, reauths j = true) →
      (make_request_with_retry false false true true ttl now url outcomes reauths
        []).result = .error (errOf (outcomes 4)) ∧
      (make_request_with_retry false false true true ttl now url outcomes reauths
        []).oIdx = 5) ∧
    (∀ j c2 : Nat, j < 5 → (∀ i, i < j → retryableOutcome (outcomes i) = true) →
      (∀ j2, reauths j2 = true) → outcomes j = .http c2 →
      retryableOutcome (.http c2) = false →
      (make_request_with_retry false false true true ttl now url outcomes reauths
        []).result = .ok Option.none ∧
      (make_request_with_retry false false true true ttl now url outcomes reauths
        []).oIdx = j + 1) ∧
    (∀ cache2 : Cache, ∀ oIdx rIdx : Nat, outcomes oIdx = .http 401 →
      (reauths rIdx = true →
        requestBody false false true true ttl now url outcomes reauths cache2 oIdx
          rIdx = ⟨.error .reauthRetry, cache2, oIdx + 1, rIdx + 1⟩) ∧
      (reauths rIdx = false →
        requestBody false false true true ttl now url outcomes reauths cache2 oIdx
          rIdx = ⟨.ok Option.none, cache2, oIdx + 1, rIdx + 1⟩)) := by
  refine ⟨?_, ?_, ?_, ?_⟩
  · simpa using tenacityLoop_oIdx_le cacheable authenticated ensureOk sessionAvail
      ttl now url outcomes reauths 5 cache 0 0
  · intro hro hra
    have h := tenacityLoop_retryable ttl now url outcomes reauths 5 0 0 []
      (by omega) (by simpa using hro) hra
    exact ⟨h.1, h.2⟩
  · intro j c2 hj hro hra ho hnr
    have h := tenacityLoop_terminal ttl now url outcomes reauths c2 hnr j 5 0 0 []
      hj (by simpa using hro) hra (by simpa using ho)
    exact ⟨h.1, by simpa using h.2⟩
  · intro cache2 oIdx rIdx ho
    constructor
    · intro hr
      simp [requestBody, ho, hr]
    · intro hr
      simp [requestBody, ho, hr]

/-- C3, witness: all-connection-error upstream — exactly 5 attempts and
the connection error is re-raised; and for a 401-then-reauth-success
outcome the body consumes one re-authentication and raises the retry
marker. -/
theorem c3_retry_policy_witness :
    (make_request_with_retry false false true true 300 0 "u" (fun _ => .connError)
      (fun _ => true) []).result = .error .connE ∧
    (make_request_with_retry false false true true 300 0 "u" (fun _ => .connError)
      (fun _ => true) []).oIdx = 5 ∧
    requestBody false false true true 300 0 "u" (fun _ => .http 401)
      (fun _ => true) [] 0 0 = ⟨.error .reauthRetry, [], 1, 1⟩ := by
  have h := c3_retry_policy (fun _ => .connError) (fun _ => true)
    false false true true 300 0 "u" []
  have h2 := (h.2.1 (fun i _ => rfl) (fun j => rfl))
  have h3 := c3_retry_policy (fun _ => .http 401) (fun _ => true)
    false false true true 300 0 "u" []
  exact ⟨h2.1, h2.2, (h3.2.2.2 [] 0 0 rfl).1 rfl⟩

/-- C5: the response cache under its 300 s TTL.  (1) `_is_cached` never
returns an entry whose age has reached the TTL, and evicts it during that
lookup.  (2) A cacheable GET finding an entry younger than the TTL returns
the cached body with zero network attempts and leaves the cache unchanged.
(3) With the entry's age at or beyond the TTL, the same call evicts it and
performs a fresh network request, caching and returning the new body. -/
theorem c5_cache_ttl (cache : Cache) (now ts2 : Int) (url : String) (bdy : Nat)
    (outcomes : Nat → Outcome) (reauths : Nat → Bool)
    (authenticated ensureOk sessionAvail : Bool) :
    (∀ e : String × Nat × Int, cache.find? (fun x => x.1 == url) = some e →
      now - e.2.2 ≥ CACHE_TTL →
      is_cached cache CACHE_TTL now url =
        ((false, Option.none), cache.eraseP (fun x => x.1 == url))) ∧
    (cache.find? (fun x => x.1 == url) = some (url, bdy, ts2) →
      now - ts2 < CACHE_TTL →
      make_request_with_retry true authenticated ensureOk sessionAvail CACHE_TTL now
        url outcomes reauths cache = ⟨.ok (some bdy), cache, 0, 0⟩) ∧
    (cache.find? (fun x => x.1 == url) = some (url, bdy, ts2) →
      now - ts2 ≥ CACHE_TTL →
      ∀ b2 : Nat, outcomes 0 = .ok b2 →
      make_request_with_retry true false true true CACHE_TTL now url outcomes reauths
        cache = ⟨.ok (some b2),
          cacheSet (cache.eraseP (fun x => x.1 == url)) url (b2, now), 1, 0⟩) := by
  refine ⟨?_, ?_, ?_⟩
  · intro e hfind hage
    simp [is_cached, hfind, show ¬(now - e.2.2 < CACHE_TTL) from by omega]
  · intro hfind hfresh
    have hic : is_cached cache CACHE_TTL now url = ((true, some bdy), cache) := by
      simp [is_cached, hfind, hfresh]
    simp [make_request_with_retry, tenacityLoop, requestBody, hic]
  · intro hfind hage b2 ho
    have hic : is_cached cache CACHE_TTL now url =
        ((false, Option.none), cache.eraseP (fun x => x.1 == url)) := by
      simp [is_cached, hfind, show ¬(now - ts2 < CACHE_TTL) from by omega]
    simp [make_request_with_retry, tenacityLoop, requestBody, hic, ho]

/-- C5, witness: a one-entry cache stored at time 0 — hit at `now = 100`
with no network attempt, evicted and refreshed at `now = 400` with one
network attempt. -/
theorem c5_cache_ttl_witness :
    make_request_with_retry true false true true CACHE_TTL 100 "u"
      (fun _ => .ok 9) (fun _ => true) [("u", 7, 0)] =
      ⟨.ok (some 7), [("u", 7, 0)], 0, 0⟩ ∧
    make_request_with_retry true false true true CACHE_TTL 400 "u"
      (fun _ => .ok 9) (fun _ => true) [("u", 7, 0)] =
      ⟨.ok (some 9), [("u", 9, 400)], 1, 0⟩ := by
  have h1 := (c5_cache_ttl [("u", 7, 0)] 100 0 "u" 7 (fun _ => .ok 9) (fun _ => true)
    false true true).2.1 (by decide) (by decide)
  have h2 := (c5_cache_ttl [("u", 7, 0)] 400 0 "u" 7 (fun _ => .ok 9) (fun _ => true)
    false true true).2.2 (by decide) (by decide) 9 rfl
  exact ⟨h1, by simpa using h2⟩
